import Mathlib

/-!
Verification development for the Jira-CSV → portfolio-snapshot pipeline
(`prototype/transform_jira_csv_to_snapshot.py`,
`prototype/generate_portfolio_heatmap.py`, `prototype/generate_exec_brief.py`).

Modelling conventions:
* Python `int` is `Int`; Python `float` values are modelled as exact
  rationals (`Rat`); `datetime.date` values are modelled by their civil
  day ordinal (an `Int`), so `d1 < d2` and `(d1 - d2).days` are the
  ordinary integer order and difference.
* Python `dict` is an insertion-ordered association list with
  replace-in-place update (`alInsert`), matching CPython semantics.
* Python string operations are re-implemented over the character list
  `String.data` (ASCII inputs), because the embedding only needs the
  exact byte-for-byte behaviour on the ASCII data the pipeline handles.
* `list.sort(key=...)` (a stable ascending sort) is modelled by a stable
  insertion sort on the same key order.
* File I/O is out of scope: fallible stages return `Except String`, and
  a snapshot value exists only in the `Except.ok` case.
-/

/-! ## Basic string machinery (ASCII fragment of the Python `str` methods) -/

/-- ASCII lower-casing of one character, as Python `str.lower` acts on ASCII. -/
def charLower (c : Char) : Char :=
  if 65 ≤ c.toNat ∧ c.toNat ≤ 90 then Char.ofNat (c.toNat + 32) else c

/-- `s.lower()` on ASCII strings. -/
def lowerStr (s : String) : String := ⟨s.data.map charLower⟩

/-- Python whitespace test used by `str.strip`. -/
def isPySpace (c : Char) : Bool :=
  c.toNat = 32 ∨ c.toNat = 9 ∨ c.toNat = 10 ∨ c.toNat = 13 ∨ c.toNat = 11 ∨ c.toNat = 12

/-- `str.strip()` over a character list. -/
def stripChars (l : List Char) : List Char :=
  ((l.dropWhile isPySpace).reverse.dropWhile isPySpace).reverse

/-- `s.strip()`. -/
def stripStr (s : String) : String := ⟨stripChars s.data⟩

/-- `s.startswith(p)`. -/
def startsWithStr (p s : String) : Bool := List.isPrefixOf p.data s.data

/-- String concatenation (Python `+` / f-string splicing). -/
def strCat (s t : String) : String := ⟨s.data ++ t.data⟩

/-- Code-point lexicographic `<` on character lists: Python string comparison. -/
def charListLt : List Char → List Char → Bool
  | [], [] => false
  | [], _ :: _ => true
  | _ :: _, [] => false
  | c :: cs, d :: ds => if c.toNat < d.toNat then true
      else if c.toNat = d.toNat then charListLt cs ds else false

/-- Python `s1 < s2` on strings. -/
def strLt (s t : String) : Bool := charListLt s.data t.data

/-! ## Association lists with CPython `dict` semantics
(insertion order preserved; assigning to an existing key updates in place). -/

/-- `m[k] = v` for an insertion-ordered dictionary. -/
def alInsert {α : Type} : List (String × α) → String → α → List (String × α)
  | [], k, v => [(k, v)]
  | (k', v') :: t, k, v =>
      if k' = k then (k', v) :: t else (k', v') :: alInsert t k v

/-- `m.get(k)`. -/
def alLookup {α : Type} : List (String × α) → String → Option α
  | [], _ => none
  | (k', v) :: t, k => if k = k' then some v else alLookup t k

/-! ## Numeric and date parsing (`parse_int`, `parse_date`) -/

/-- Semantic content of Python `int(float(x))`: truncation toward zero of a
rational. -/
def pyTrunc (q : Rat) : Int := if 0 ≤ q then ⌊q⌋ else -⌊-q⌋

/-- Digits of a character list interpreted in base 10. -/
def digitsToNat (l : List Char) : Nat :=
  l.foldl (fun acc c => acc * 10 + (c.toNat - 48)) 0

/-- Every character is an ASCII digit. -/
def allDigits (l : List Char) : Bool := l.all (fun c => 48 ≤ c.toNat ∧ c.toNat ≤ 57)

/-- Split a character list at every occurrence of a separator character. -/
def splitOnChar (sep : Char) (l : List Char) : List (List Char) :=
  l.foldr (fun c acc =>
    match acc with
    | [] => if c = sep then [[], []] else [[c]]
    | g :: gs => if c = sep then [] :: (g :: gs) else (c :: g) :: gs) [[]]

/-- `parse_int` from `transform_jira_csv_to_snapshot.py`: strip the string,
return the default when empty, otherwise read it as a decimal numeral with an
optional sign and optional fractional part (the `int(float(x))` path, which
truncates toward zero), and fall back to the default on anything else.
Exotic `float()` spellings (exponents, `inf`, underscores) are not modelled;
they also fall back to the default here. -/
def parse_int (x : String) (default : Int := 0) : Int :=
  let s := stripChars x.data
  if s = [] then default
  else
    let (neg, body) :=
      match s with
      | '-' :: rest => (true, rest)
      | '+' :: rest => (false, rest)
      | _ => (false, s)
    match splitOnChar '.' body with
    | [ipart] =>
        if ipart ≠ [] ∧ allDigits ipart then
          let n : Int := digitsToNat ipart
          if neg then -n else n
        else default
    | [ipart, fpart] =>
        if (ipart ≠ [] ∨ fpart ≠ []) ∧ allDigits ipart ∧ allDigits fpart then
          let n : Int := digitsToNat ipart
          if neg then -n else n
        else default
    | _ => default

/-- Gregorian leap-year test (as Python's `datetime`). -/
def isLeapYear (y : Int) : Bool := (y % 4 = 0 ∧ y % 100 ≠ 0) ∨ y % 400 = 0

/-- Days in a month of the proleptic Gregorian calendar. -/
def daysInMonth (y m : Int) : Int :=
  if m = 2 then (if isLeapYear y then 29 else 28)
  else if m = 4 ∨ m = 6 ∨ m = 9 ∨ m = 11 then 30
  else 31

/-- Civil day ordinal of a Gregorian date (days since 1970-01-01, standard
`days_from_civil` algorithm); differences of ordinals are differences in days,
and the ordinal order is the calendar order. -/
def civilDays (y m d : Int) : Int :=
  let y' := y - (if m ≤ 2 then 1 else 0)
  let era := y' / 400
  let yoe := y' - era * 400
  let doy := (153 * (m + (if 2 < m then -3 else 9)) + 2) / 5 + d - 1
  let doe := yoe * 365 + yoe / 4 - yoe / 100 + doy
  era * 146097 + doe - 719468

/-- `strptime` `%Y` field (regex `\d\d\d\d`): exactly four ASCII digits. -/
def yearField (l : List Char) : Option Int :=
  if l.length = 4 ∧ allDigits l then some (digitsToNat l : Int) else none

/-- `strptime` `%m` field (regex `1[0-2]|0[1-9]|[1-9]`): one or two digits;
between fixed separators the regex and this reader accept the same strings,
with out-of-range numerals rejected by the date validation below. -/
def monthField (l : List Char) : Option Int :=
  if l ≠ [] ∧ l.length ≤ 2 ∧ allDigits l then some (digitsToNat l : Int) else none

/-- `strptime` `%d` field (regex `3[0-1]|[1-2]\d|0[1-9]|[1-9]| [1-9]`): one or
two digits, or a space followed by one nonzero digit; out-of-range numerals
are rejected by the date validation below. -/
def dayField (l : List Char) : Option Int :=
  match l with
  | ' ' :: rest =>
      if rest.length = 1 ∧ allDigits rest ∧ 1 ≤ digitsToNat rest then
        some (digitsToNat rest : Int)
      else none
  | _ => if l ≠ [] ∧ l.length ≤ 2 ∧ allDigits l then some (digitsToNat l : Int) else none

/-- Validate a (year, month, day) triple as `datetime.date` does and return its
day ordinal. -/
def mkDate (y m d : Int) : Option Int :=
  if 1 ≤ y ∧ y ≤ 9999 ∧ 1 ≤ m ∧ m ≤ 12 ∧ 1 ≤ d ∧ d ≤ daysInMonth y m then
    some (civilDays y m d)
  else none

/-- One `strptime` attempt: split on the separator into three fields laid out
by `yearFirst` (`%Y-%m-%d` or `%m/%d/%Y` shapes), each read by its
field-width-exact reader. -/
def tryFormat (sep : Char) (yearFirst : Bool) (l : List Char) : Option Int :=
  match splitOnChar sep l with
  | [a, b, c] =>
      if yearFirst then
        match yearField a, monthField b, dayField c with
        | some y, some m, some d => mkDate y m d
        | _, _, _ => none
      else
        match monthField a, dayField b, yearField c with
        | some m, some d, some y => mkDate y m d
        | _, _, _ => none
  | _ => none

/-- `parse_date`: strip, empty gives no date, then try the formats
`%Y-%m-%d`, `%m/%d/%Y`, `%Y/%m/%d` in that order; years are exactly four
digits and months/days one or two, as in CPython `strptime` (so `"26-02-06"`
or `"1/2/34"` yield no date). -/
def parse_date (x : String) : Option Int :=
  let s := stripChars x.data
  if s = [] then none
  else
    match tryFormat '-' true s with
    | some d => some d
    | none =>
        match tryFormat '/' false s with
        | some d => some d
        | none => tryFormat '/' true s

/-! ## Status normalization (`normalize_status`) -/

/-- `normalize_status`: fixed case-insensitive lookup, with passthrough of the
stripped raw status (or `"Unknown"` when blank). -/
def normalize_status (status : String) : String :=
  let s := lowerStr (stripStr status)
  if s = "done" ∨ s = "closed" ∨ s = "resolved" then "Done"
  else if s = "blocked" then "Blocked"
  else if s = "in progress" ∨ s = "in-progress" ∨ s = "inprogress" ∨ s = "doing" then
    "In Progress"
  else if s = "to do" ∨ s = "todo" ∨ s = "backlog" ∨ s = "not started" ∨ s = "open" then
    "Not Started"
  else if stripStr status = "" then "Unknown" else stripStr status

/-! ## Data model: `Row` and `InitiativeAgg` -/

/-- One normalized issue row (the `Row` dataclass). -/
structure Row where
  key : String
  issue_type : String
  summary : String
  status : String
  parent_key : String
  story_points : Int := 0
  assignee : String := ""
  updated : String := ""
  due_date : Option Int := none
  blocks : Int := 0
  blocked_days : Int := 0
  scope_changes_14d : Int := 0
deriving DecidableEq

/-- Per-initiative accumulation state (the `InitiativeAgg` dataclass). -/
structure InitiativeAgg where
  id : String
  name : String
  total_points : Int := 0
  done_points : Int := 0
  blocked_days : Int := 0
  scope_changes_14d : Int := 0
  dependency_count : Int := 0
  critical_dependency : Bool := false
  days_stagnant : Int := 0
  due_date : Option Int := none
  status_notes : List String := []
deriving DecidableEq

/-! ## CSV loading (`load_csv`) -/

/-- Required CSV headers (`REQUIRED_HEADERS`). -/
def REQUIRED_HEADERS : List String :=
  ["Issue key", "Issue Type", "Summary", "Status", "Parent key"]

/-- Raw CSV content handed to `load_csv`: the header row (if any) and the
records as field-name/value maps, file I/O itself being out of scope. -/
structure CsvData where
  fieldnames : Option (List String)
  records : List (List (String × String))
deriving DecidableEq

/-- `r.get(k, d)` on a record. -/
def getField (rec : List (String × String)) (k d : String) : String :=
  (alLookup rec k).getD d

/-- Python's `repr` of a list of strings, used by the missing-header message. -/
def pyListRepr (l : List String) : String :=
  strCat "[" (strCat (String.intercalate ", " (l.map (fun h => strCat "'" (strCat h "'")))) "]")

/-- Build one `Row` from a CSV record (the body of the `load_csv` loop). -/
def rowOfRecord (rec : List (String × String)) : Row :=
  { key := stripStr (getField rec "Issue key" "")
    issue_type := stripStr (getField rec "Issue Type" "")
    summary := stripStr (getField rec "Summary" "")
    status := normalize_status (getField rec "Status" "")
    parent_key := stripStr (getField rec "Parent key" "")
    story_points := parse_int (getField rec "Story Points" "")
    assignee := stripStr (getField rec "Assignee" "")
    updated := stripStr (getField rec "Updated" "")
    due_date := parse_date (getField rec "Due date" "")
    blocks := parse_int (getField rec "Blocks" "0")
    blocked_days := parse_int (getField rec "Blocked Days" "0")
    scope_changes_14d := parse_int (getField rec "Scope Changes (14d)" "0") }

/-- `load_csv`: fail on absent or incomplete headers, then normalize every
record whose `Issue key` is non-blank. -/
def load_csv (d : CsvData) : Except String (List Row) :=
  match d.fieldnames with
  | none => .error "CSV has no headers."
  | some fns =>
      let missing := REQUIRED_HEADERS.filter (fun h => !(fns.contains h))
      if missing ≠ [] then
        .error (strCat "Missing required headers: " (pyListRepr missing))
      else
        .ok ((d.records.filter
          (fun rec => stripStr (getField rec "Issue key" "") ≠ "")).map rowOfRecord)

/-! ## Hierarchy resolution (`build_parent_map`, `index_rows`, `find_initiative_key`) -/

/-- `build_parent_map`: child key → parent key, for rows with a parent. -/
def build_parent_map (rows : List Row) : List (String × String) :=
  rows.foldl (fun m r => if r.parent_key ≠ "" then alInsert m r.key r.parent_key else m) []

/-- `index_rows`: key → row. -/
def index_rows (rows : List Row) : List (String × Row) :=
  rows.foldl (fun m r => alInsert m r.key r) []

/-- `row.issue_type.lower() == "initiative"`. -/
def isInitiativeType (r : Row) : Bool := lowerStr r.issue_type = "initiative"

/-- Loop body of `find_initiative_key`; the fuel argument is the `range(20)`
safety bound, `visited` the cycle guard. A parent entry that is the empty
string stops the walk, mirroring Python's falsy test `if not parent`. -/
def findInitGo (parentMap : List (String × String)) (rowIndex : List (String × Row)) :
    Nat → String → List String → Option String
  | 0, _, _ => none
  | n + 1, cur, visited =>
      if cur ∈ visited then none
      else
        let hit :=
          match alLookup rowIndex cur with
          | some row => if isInitiativeType row then some row.key else none
          | none => none
        match hit with
        | some k => some k
        | none =>
            match alLookup parentMap cur with
            | none => none
            | some p =>
                if p = "" then none else findInitGo parentMap rowIndex n p (cur :: visited)

/-- `find_initiative_key`: walk parent pointers for at most 20 hops. -/
def find_initiative_key (issue_key : String) (parentMap : List (String × String))
    (rowIndex : List (String × Row)) : Option String :=
  findInitGo parentMap rowIndex 20 issue_key []

/-- Number of loop iterations `find_initiative_key` executes (same recursion
structure as `findInitGo`, counting one per visited key). -/
def findInitGoHops (parentMap : List (String × String)) (rowIndex : List (String × Row)) :
    Nat → String → List String → Nat
  | 0, _, _ => 0
  | n + 1, cur, visited =>
      if cur ∈ visited then 1
      else
        let hit :=
          match alLookup rowIndex cur with
          | some row => if isInitiativeType row then some row.key else none
          | none => none
        match hit with
        | some _ => 1
        | none =>
            match alLookup parentMap cur with
            | none => 1
            | some p =>
                if p = "" then 1 else 1 + findInitGoHops parentMap rowIndex n p (cur :: visited)

/-- Hop count of a full `find_initiative_key` call. -/
def findInitiativeHops (issue_key : String) (parentMap : List (String × String))
    (rowIndex : List (String × Row)) : Nat :=
  findInitGoHops parentMap rowIndex 20 issue_key []

/-! ## Confidence scoring (`dcs_from_signals`, `band_from_dcs`) -/

/-- `max(0.0, min(1.0, pct_done))`. -/
def clamp01 (q : Rat) : Rat := max 0 (min 1 q)

/-- The progress-anchoring subtraction in `dcs_from_signals`:
`int((1.0 - max(0.0, min(1.0, pct_done))) * 30)`, under this file's
exact-rational reading of the floats.  The program evaluates the expression in
IEEE doubles, whose rounding can change the truncated value by one (see
`progress_penalty_fp`, the correctly-rounded binary64 form); the structural
facts proved about the scorer (clamping, banding, ordering, drift sign) do not
depend on which of the two readings is used. -/
def progress_penalty (pct_done : Rat) : Int := pyTrunc ((1 - clamp01 pct_done) * 30)

/-- The due-date proximity subtraction in `dcs_from_signals`. -/
def due_penalty (pct_done : Rat) (days_to_target : Option Int) : Int :=
  match days_to_target with
  | some d =>
      if d ≤ 7 ∧ pct_done < 4 / 5 then 15
      else if d ≤ 14 ∧ pct_done < 3 / 5 then 10
      else 0
  | none => 0

/-- `dcs_from_signals`: start at 100, subtract the capped penalties, clamp to
[0, 100]. -/
def dcs_from_signals (pct_done : Rat) (blocked_days scope_changes_14d dependency_count : Int)
    (critical_dependency : Bool) (days_to_target : Option Int) (has_blocked_items : Bool) : Int :=
  let score := 100 - progress_penalty pct_done
    - min 25 (blocked_days * 5)
    - min 20 (scope_changes_14d * 4)
    - (min 15 (dependency_count * 3) + (if critical_dependency then 5 else 0))
    - due_penalty pct_done days_to_target
    - (if has_blocked_items then 8 else 0)
  max 0 (min 100 score)

/-- `band_from_dcs`. -/
def band_from_dcs (dcs : Int) : String :=
  if dcs ≥ 80 then "Green" else if dcs ≥ 60 then "Yellow" else "Red"

/-! ## Initiative aggregation (the row-folding loop of `transform`) -/

/-- Aggregate made for an explicit Initiative row. -/
def initialAgg (r : Row) : InitiativeAgg :=
  { id := r.key, name := r.summary, due_date := r.due_date }

/-- Placeholder aggregate for an initiative key that has no Initiative row. -/
def placeholderAgg (k : String) : InitiativeAgg :=
  { id := k, name := strCat k " (unresolved title)" }

/-- `issue_type.lower() in ("story", "sub-task", "subtask", "task")`. -/
def pointsType (r : Row) : Bool :=
  lowerStr r.issue_type = "story" ∨ lowerStr r.issue_type = "sub-task" ∨
    lowerStr r.issue_type = "subtask" ∨ lowerStr r.issue_type = "task"

/-- The status note a row contributes (only Blocked rows with a summary). -/
def rowNote (r : Row) : List String :=
  if r.status = "Blocked" ∧ r.summary ≠ "" then [strCat "Blocked: " r.summary] else []

/-- Fold one row into its initiative's aggregate (the loop body of
`transform`'s aggregation pass). -/
def foldRow (r : Row) (agg : InitiativeAgg) : InitiativeAgg :=
  let agg :=
    match r.due_date with
    | some d =>
        match agg.due_date with
        | none => { agg with due_date := some d }
        | some a => if d < a then { agg with due_date := some d } else agg
    | none => agg
  let agg :=
    if pointsType r then
      { agg with
          total_points := agg.total_points + r.story_points
          done_points := agg.done_points + (if r.status = "Done" then r.story_points else 0) }
    else agg
  { agg with
      blocked_days := max agg.blocked_days r.blocked_days
      scope_changes_14d := agg.scope_changes_14d + r.scope_changes_14d
      dependency_count := agg.dependency_count + r.blocks
      critical_dependency := agg.critical_dependency || r.blocks ≥ 3
      status_notes := agg.status_notes ++ rowNote r }

/-- Effective resolution of a row key in `transform`'s aggregation pass: the
`find_initiative_key` result, with Python's falsy test `if not ikey` dropping
both `None` and the empty string. -/
def effResolve (rows : List Row) (key : String) : Option String :=
  match find_initiative_key key (build_parent_map rows) (index_rows rows) with
  | none => none
  | some ik => if ik = "" then none else some ik

/-- The `initiatives` dict after the first pass (one entry per Initiative row). -/
def initTable (rows : List Row) : List (String × InitiativeAgg) :=
  (rows.filter isInitiativeType).foldl (fun t r => alInsert t r.key (initialAgg r)) []

/-- One iteration of the aggregation pass: resolve the row, synthesize a
placeholder if needed, fold the row in. -/
def aggStep (rows : List Row) (t : List (String × InitiativeAgg)) (r : Row) :
    List (String × InitiativeAgg) :=
  match effResolve rows r.key with
  | none => t
  | some ik => alInsert t ik (foldRow r ((alLookup t ik).getD (placeholderAgg ik)))

/-- The `initiatives` dict after all rows are folded in. -/
def aggTable (rows : List Row) : List (String × InitiativeAgg) :=
  rows.foldl (aggStep rows) (initTable rows)

/-- The rows of the input that effectively resolve to initiative `k`. -/
def resolvesTo (rows : List Row) (k : String) : List Row :=
  rows.filter (fun r => decide (effResolve rows r.key = some k))

/-! ## Snapshot assembly -/

/-- One finalized initiative record of the snapshot JSON. -/
structure InitRecord where
  id : String
  name : String
  dcs_current : Int
  dcs_prior : Int
  band : String
  blocked_days : Int
  scope_changes_14d : Int
  days_stagnant : Int
  dependency_count : Int
  critical_dependency : Bool
  days_to_target : Int
  status_notes : List String
deriving DecidableEq

/-- The `portfolio` metadata object. -/
structure Portfolio where
  week_ending : String
  total_initiatives : Nat
  source : String
deriving DecidableEq

/-- The snapshot JSON produced by `transform`. -/
structure Snapshot where
  portfolio : Portfolio
  initiatives : List InitRecord
deriving DecidableEq

instance : Inhabited Snapshot := ⟨⟨⟨"", 0, ""⟩, []⟩⟩

/-- `pct_done = (agg.done_points / agg.total_points) if agg.total_points > 0 else 0.0`
(line 297 of the transform). -/
def pct_done (done total : Int) : Rat :=
  if 0 < total then (done : Rat) / (total : Rat) else 0

/-- `any(n.startswith("Blocked:") for n in agg.status_notes)`. -/
def hasBlockedItems (agg : InitiativeAgg) : Bool :=
  agg.status_notes.any (fun n => startsWithStr "Blocked:" n)

/-- Finalize one aggregate into its snapshot record (the per-initiative body
of `transform`'s output loop); `we` is the parsed `week_ending` ordinal. -/
def finalizeRecord (we : Int) (agg : InitiativeAgg) : InitRecord :=
  let pct : Rat := pct_done agg.done_points agg.total_points
  let days_to_target : Option Int := agg.due_date.map (fun d => d - we)
  let hb := hasBlockedItems agg
  let dcs_current := dcs_from_signals pct agg.blocked_days agg.scope_changes_14d
    agg.dependency_count agg.critical_dependency days_to_target hb
  let drift := min 8 (agg.scope_changes_14d * 2 + (if hb then 2 else 0))
  let dcs_prior := max 0 (min 100 (dcs_current + drift))
  let near : Bool := match days_to_target with | some d => decide (d ≤ 14) | none => false
  let days_stagnant : Int :=
    if agg.total_points > 0 ∧ pct < 3 / 10 ∧ near then 4
    else if pct < 4 / 5 then 1 else 0
  let notes := agg.status_notes.take 2
  let notes := if notes = [] then ["No significant blockers detected in snapshot."] else notes
  { id := agg.id, name := agg.name, dcs_current := dcs_current, dcs_prior := dcs_prior
    band := band_from_dcs dcs_current, blocked_days := agg.blocked_days
    scope_changes_14d := agg.scope_changes_14d, days_stagnant := days_stagnant
    dependency_count := agg.dependency_count, critical_dependency := agg.critical_dependency
    days_to_target := days_to_target.getD 21, status_notes := notes }

/-- Sort key order of `out_inits.sort(key=lambda x: (x["band"], x["dcs_current"]))`:
lexicographic on the band string, then the score. -/
def keyLE (a b : InitRecord) : Bool :=
  if strLt a.band b.band then true
  else if a.band = b.band then a.dcs_current ≤ b.dcs_current
  else false

/-- Stable insertion of one element after every already-placed element that may
precede it. -/
def insSorted {α : Type} (le : α → α → Bool) (x : α) : List α → List α
  | [] => [x]
  | y :: ys => if le y x then y :: insSorted le x ys else x :: y :: ys

/-- Stable ascending sort (the model of Python's `list.sort`): elements are
inserted in input order, each after all earlier elements it does not strictly
precede. -/
def stableSort {α : Type} (le : α → α → Bool) (l : List α) : List α :=
  l.foldl (fun acc x => insSorted le x acc) []

/-- Order and wrap the finalized records with the portfolio metadata. -/
def assembleSnapshot (finalizer : InitiativeAgg → InitRecord) (week_ending : String)
    (table : List (String × InitiativeAgg)) : Snapshot :=
  let outInits := (table.map Prod.snd).map finalizer
  let sorted := stableSort keyLE outInits
  { portfolio :=
      { week_ending := week_ending, total_initiatives := sorted.length, source := "csv_transform" }
    initiatives := sorted }

/-- `transform` with the finalization step abstracted (shared between the
source-faithful rational scorer and its integer-only evaluation mirror). -/
def transformWith (finalizer : Int → InitiativeAgg → InitRecord) (rows : List Row)
    (week_ending : String) : Except String Snapshot :=
  let table := aggTable rows
  match parse_date week_ending with
  | none => .error "week_ending must be a date like YYYY-MM-DD"
  | some we => .ok (assembleSnapshot (finalizer we) week_ending table)

/-- `transform`: aggregate rows, score every initiative, order and wrap. -/
def transform (rows : List Row) (week_ending : String) : Except String Snapshot :=
  transformWith finalizeRecord rows week_ending

/-- `main` without the file I/O: `load_csv` then `transform`; a snapshot value
exists only when both stages succeed. -/
def runTransform (d : CsvData) (week_ending : String) : Except String Snapshot := do
  let rows ← load_csv d
  transform rows week_ending

/-! ## Integer-only evaluation mirror of the scorer

`finalizeRecord` computes with exact rationals (the model of the Python
floats).  For concrete evaluation the same computation is re-expressed over
the integer counts; `transform_eq_transformInt` below proves the two agree. -/

/-- `pct_done < num / den` expressed on the counts (`num`, `den` positive). -/
def pctLtFrac (done total num den : Int) : Bool :=
  if 0 < total then den * done < num * total else true

/-- Integer form of `progress_penalty` on `pct_done = done / total`. -/
def progressPenaltyCounts (done total : Int) : Int :=
  if 0 < total then
    if done ≤ 0 then 30
    else if total ≤ done then 0
    else (30 * (total - done)) / total
  else 30

/-- Integer form of `due_penalty`. -/
def duePenaltyCounts (done total : Int) (days_to_target : Option Int) : Int :=
  match days_to_target with
  | some d =>
      if d ≤ 7 ∧ pctLtFrac done total 4 5 then 15
      else if d ≤ 14 ∧ pctLtFrac done total 3 5 then 10
      else 0
  | none => 0

/-- Integer form of `dcs_from_signals` on the aggregate's counts. -/
def dcsFromCounts (done total blocked_days scope_changes_14d dependency_count : Int)
    (critical_dependency : Bool) (days_to_target : Option Int) (has_blocked_items : Bool) : Int :=
  let score := 100 - progressPenaltyCounts done total
    - min 25 (blocked_days * 5)
    - min 20 (scope_changes_14d * 4)
    - (min 15 (dependency_count * 3) + (if critical_dependency then 5 else 0))
    - duePenaltyCounts done total days_to_target
    - (if has_blocked_items then 8 else 0)
  max 0 (min 100 score)

/-- Integer form of `finalizeRecord`. -/
def finalizeRecordInt (we : Int) (agg : InitiativeAgg) : InitRecord :=
  let days_to_target : Option Int := agg.due_date.map (fun d => d - we)
  let hb := hasBlockedItems agg
  let dcs_current := dcsFromCounts agg.done_points agg.total_points agg.blocked_days
    agg.scope_changes_14d agg.dependency_count agg.critical_dependency days_to_target hb
  let drift := min 8 (agg.scope_changes_14d * 2 + (if hb then 2 else 0))
  let dcs_prior := max 0 (min 100 (dcs_current + drift))
  let near : Bool := match days_to_target with | some d => decide (d ≤ 14) | none => false
  let days_stagnant : Int :=
    if agg.total_points > 0 ∧ pctLtFrac agg.done_points agg.total_points 3 10 ∧ near then 4
    else if pctLtFrac agg.done_points agg.total_points 4 5 then 1 else 0
  let notes := agg.status_notes.take 2
  let notes := if notes = [] then ["No significant blockers detected in snapshot."] else notes
  { id := agg.id, name := agg.name, dcs_current := dcs_current, dcs_prior := dcs_prior
    band := band_from_dcs dcs_current, blocked_days := agg.blocked_days
    scope_changes_14d := agg.scope_changes_14d, days_stagnant := days_stagnant
    dependency_count := agg.dependency_count, critical_dependency := agg.critical_dependency
    days_to_target := days_to_target.getD 21, status_notes := notes }

/-- Integer-evaluating mirror of `transform`. -/
def transformInt (rows : List Row) (week_ending : String) : Except String Snapshot :=
  transformWith finalizeRecordInt rows week_ending

/-! ## Executive brief (`generate_exec_brief.py`) -/

/-- `Initiative.delta` of the brief generator; `load_snapshot` copies the
snapshot record fields verbatim, so it is stated on `InitRecord`. -/
def initiativeDelta (x : InitRecord) : Int := x.dcs_current - x.dcs_prior

/-- The positive-momentum filter of `render_brief`:
`i.delta > 0 or (i.band == "Green" and i.dcs_current >= 85)`. -/
def positiveMomentum (x : InitRecord) : Bool :=
  0 < initiativeDelta x ∨ (x.band = "Green" ∧ 85 ≤ x.dcs_current)

/-! ## Portfolio heatmap (`generate_portfolio_heatmap.py`) -/

/-- `clamp` from the heatmap generator. -/
def clamp (x lo hi : Rat) : Rat := max lo (min hi x)

/-- Python 3 `round`: round half to even. -/
def pyRound (q : Rat) : Int :=
  if q - ⌊q⌋ = 1 / 2 then (if 2 ∣ ⌊q⌋ then ⌊q⌋ else ⌊q⌋ + 1) else ⌊q + 1 / 2⌋

/-- `score_0_10`: linear rescale into 0–10 and round. -/
def score_0_10 (value max_value : Rat) : Int :=
  if max_value ≤ 0 then 0 else pyRound (clamp (value / max_value * 10) 0 10)

/-- The integer snapshot fields `compute_driver_scores` reads. -/
structure HeatItem where
  dcs_current : Int := 0
  blocked_days : Int := 0
  scope_changes_14d : Int := 0
  dependency_count : Int := 0
  critical_dependency : Bool := false
  days_to_target : Int := 21
  days_stagnant : Int := 0
deriving DecidableEq

/-- The six named driver scores. -/
structure DriverScores where
  confidence_risk : Int
  blocked : Int
  scope_volatility : Int
  dependencies : Int
  due_proximity : Int
  stagnation : Int
deriving DecidableEq

/-- `compute_driver_scores`. -/
def compute_driver_scores (item : HeatItem) : DriverScores :=
  let confidence_risk := score_0_10 ((100 - item.dcs_current : Int) : Rat) 60
  let blocked := score_0_10 (item.blocked_days : Rat) 5
  let scope_volatility := score_0_10 (item.scope_changes_14d : Rat) 5
  let dependencies0 := score_0_10 (item.dependency_count : Rat) 6
  let dependencies := if item.critical_dependency then min 10 (dependencies0 + 2) else dependencies0
  let due_proximity : Int :=
    if item.days_to_target ≤ 7 then 10
    else if item.days_to_target ≤ 14 then 7
    else if item.days_to_target ≤ 21 then 4
    else 1
  let stagnation := score_0_10 (item.days_stagnant : Rat) 6
  { confidence_risk := confidence_risk, blocked := blocked, scope_volatility := scope_volatility
    dependencies := dependencies, due_proximity := due_proximity, stagnation := stagnation }

instance : DecidableEq (Except String Snapshot) := fun a b =>
  match a, b with
  | .ok x, .ok y => if h : x = y then isTrue (by rw [h]) else isFalse (by simp [h])
  | .error x, .error y => if h : x = y then isTrue (by rw [h]) else isFalse (by simp [h])
  | .ok _, .error _ => isFalse (by simp)
  | .error _, .ok _ => isFalse (by simp)

/-! ## Dictionary lemmas -/

theorem alLookup_alInsert {α : Type} (t : List (String × α)) (k k' : String) (v : α) :
    alLookup (alInsert t k v) k' = if k' = k then some v else alLookup t k' := by
  induction t with
  | nil => by_cases h : k' = k <;> simp [alInsert, alLookup, h]
  | cons hd tl ih =>
      obtain ⟨k0, v0⟩ := hd
      by_cases h0 : k0 = k
      · subst h0
        by_cases h' : k' = k0 <;> simp [alInsert, alLookup, h']
      · by_cases h' : k' = k0
        · subst h'
          simp [alInsert, alLookup, h0]
        · simp [alInsert, alLookup, h0, h', ih]

theorem alLookup_mem {α : Type} {t : List (String × α)} {k : String} {v : α}
    (h : alLookup t k = some v) : (k, v) ∈ t := by
  induction t with
  | nil => simp [alLookup] at h
  | cons hd tl ih =>
      obtain ⟨k0, v0⟩ := hd
      by_cases h0 : k = k0
      · subst h0
        simp [alLookup] at h
        simp [h]
      · simp [alLookup, h0] at h
        exact List.mem_cons_of_mem _ (ih h)

theorem snd_mem_of_alLookup {α : Type} {t : List (String × α)} {k : String} {v : α}
    (h : alLookup t k = some v) : v ∈ t.map Prod.snd :=
  List.mem_map.2 ⟨(k, v), alLookup_mem h, rfl⟩

theorem mem_snd_alInsert {α : Type} {t : List (String × α)} {k : String} {v a : α}
    (h : a ∈ (alInsert t k v).map Prod.snd) : a = v ∨ a ∈ t.map Prod.snd := by
  induction t with
  | nil => simp [alInsert] at h; exact Or.inl h
  | cons hd tl ih =>
      obtain ⟨k0, v0⟩ := hd
      by_cases h0 : k0 = k
      · subst h0
        simp [alInsert] at h
        rcases h with h | h
        · exact Or.inl h
        · exact Or.inr (by simp [h])
      · simp [alInsert, h0] at h
        rcases h with h | h
        · exact Or.inr (by simp [h])
        · rcases ih (by simpa using h) with h' | h'
          · exact Or.inl h'
          · exact Or.inr (by simp; exact Or.inr (by simpa using h'))

/-- Origin of a value found in a table built by repeated keyed inserts. -/
theorem alLookup_foldl_insert_origin {α β : Type} (g : α → String) (f : α → β) :
    ∀ (l : List α) (t : List (String × β)) (k : String) (b : β),
      alLookup (l.foldl (fun t r => alInsert t (g r) (f r)) t) k = some b →
      (∃ r, r ∈ l ∧ g r = k ∧ f r = b) ∨ alLookup t k = some b := by
  intro l
  induction l with
  | nil => intro t k b h; exact Or.inr h
  | cons r rest ih =>
      intro t k b h
      rcases ih _ k b h with ⟨r', hr', hk, hf⟩ | h' 
      · exact Or.inl ⟨r', List.mem_cons_of_mem _ hr', hk, hf⟩
      · rw [alLookup_alInsert] at h'
        by_cases hk : k = g r
        · rw [if_pos hk] at h'
          exact Or.inl ⟨r, List.mem_cons_self _ _, hk.symm, Option.some_inj.1 h'⟩
        · rw [if_neg hk] at h'
          exact Or.inr h'

/-! ## Stable sort lemmas -/

theorem mem_insSorted {α : Type} (le : α → α → Bool) (x : α) :
    ∀ (l : List α) (a : α), a ∈ insSorted le x l ↔ a = x ∨ a ∈ l := by
  intro l
  induction l with
  | nil => intro a; simp [insSorted]
  | cons y ys ih =>
      intro a
      by_cases h : le y x = true
      · simp only [insSorted, if_pos h, List.mem_cons, ih a]
        try tauto
      · simp only [insSorted, if_neg h, List.mem_cons]
        try tauto

theorem mem_stableSort {α : Type} (le : α → α → Bool) (l : List α) (a : α) :
    a ∈ stableSort le l ↔ a ∈ l := by
  suffices h : ∀ (l : List α) (acc : List α),
      a ∈ l.foldl (fun acc x => insSorted le x acc) acc ↔ a ∈ acc ∨ a ∈ l by
    have := h l []
    simpa [stableSort] using this
  intro l
  induction l with
  | nil => intro acc; simp
  | cons x xs ih =>
      intro acc
      simp only [List.foldl_cons, ih, mem_insSorted, List.mem_cons]
      tauto

theorem pairwise_insSorted {α : Type} (le : α → α → Bool)
    (htrans : ∀ a b c, le a b = true → le b c = true → le a c = true)
    (htot : ∀ a b, le a b = true ∨ le b a = true) (x : α) :
    ∀ (l : List α), l.Pairwise (fun a b => le a b = true) →
      (insSorted le x l).Pairwise (fun a b => le a b = true) := by
  intro l
  induction l with
  | nil => intro _; simp [insSorted]
  | cons y ys ih =>
      intro h
      rw [List.pairwise_cons] at h
      obtain ⟨hy, hys⟩ := h
      by_cases hle : le y x = true
      · rw [insSorted, if_pos hle, List.pairwise_cons]
        refine ⟨?_, ih hys⟩
        intro b hb
        rcases (mem_insSorted le x ys b).1 hb with hb | hb
        · rw [hb]; exact hle
        · exact hy b hb
      · have hxy : le x y = true := (htot y x).resolve_left hle
        rw [insSorted, if_neg hle, List.pairwise_cons]
        refine ⟨?_, List.pairwise_cons.2 ⟨hy, hys⟩⟩
        intro b hb
        rcases List.mem_cons.1 hb with hb | hb
        · rw [hb]; exact hxy
        · exact htrans x y b hxy (hy b hb)

theorem pairwise_stableSort {α : Type} (le : α → α → Bool)
    (htrans : ∀ a b c, le a b = true → le b c = true → le a c = true)
    (htot : ∀ a b, le a b = true ∨ le b a = true) (l : List α) :
    (stableSort le l).Pairwise (fun a b => le a b = true) := by
  suffices h : ∀ (l acc : List α), acc.Pairwise (fun a b => le a b = true) →
      (l.foldl (fun acc x => insSorted le x acc) acc).Pairwise (fun a b => le a b = true) from
    h l [] (by simp)
  intro l
  induction l with
  | nil => intro acc h; simpa using h
  | cons x xs ih =>
      intro acc h
      exact ih _ (pairwise_insSorted le htrans htot x acc h)

/-! ## Per-key characterization of the aggregation pass -/

theorem alLookup_aggStep (rows : List Row) (t : List (String × InitiativeAgg)) (r : Row)
    (k : String) :
    alLookup (aggStep rows t r) k =
      if effResolve rows r.key = some k then
        some (foldRow r ((alLookup t k).getD (placeholderAgg k)))
      else alLookup t k := by
  unfold aggStep
  cases h : effResolve rows r.key with
  | none => simp [h]
  | some ik =>
      rw [alLookup_alInsert]
      by_cases hk : k = ik
      · subst hk
        simp [h]
      · have h2 : ¬ ik = k := fun hh => hk hh.symm
        simp [hk, h, h2]

theorem alLookup_foldl_aggStep (rows : List Row) :
    ∀ (l : List Row) (t : List (String × InitiativeAgg)) (k : String),
      alLookup (l.foldl (aggStep rows) t) k =
        l.foldl
          (fun acc r =>
            if effResolve rows r.key = some k then
              some (foldRow r (acc.getD (placeholderAgg k)))
            else acc)
          (alLookup t k) := by
  intro l
  induction l with
  | nil => intro t k; rfl
  | cons r rest ih =>
      intro t k
      simp only [List.foldl_cons]
      rw [ih, alLookup_aggStep]

theorem foldl_resolve_filter (rows : List Row) (k : String) :
    ∀ (l : List Row) (acc : Option InitiativeAgg),
      l.foldl
        (fun acc r =>
          if effResolve rows r.key = some k then
            some (foldRow r (acc.getD (placeholderAgg k)))
          else acc)
        acc =
      (l.filter (fun r => decide (effResolve rows r.key = some k))).foldl
        (fun acc r => some (foldRow r (acc.getD (placeholderAgg k)))) acc := by
  intro l
  induction l with
  | nil => intro acc; rfl
  | cons r rest ih =>
      intro acc
      by_cases h : effResolve rows r.key = some k
      · simp [List.filter_cons, h, ih]
      · simp [List.filter_cons, h, ih]

theorem foldl_some_agg (k : String) :
    ∀ (l : List Row) (a : InitiativeAgg),
      l.foldl (fun acc r => some (foldRow r (acc.getD (placeholderAgg k)))) (some a) =
        some (l.foldl (fun a r => foldRow r a) a) := by
  intro l
  induction l with
  | nil => intro a; rfl
  | cons r rest ih => intro a; simp only [List.foldl_cons, Option.getD_some, ih]

/-- What `transform`'s aggregation pass holds for key `k` once all rows are
folded: the rows effectively resolving to `k`, folded (in input order) into the
initiative-row aggregate for `k` (or the synthesized placeholder). -/
theorem alLookup_aggTable (rows : List Row) (k : String) :
    alLookup (aggTable rows) k =
      if resolvesTo rows k = [] then alLookup (initTable rows) k
      else
        some ((resolvesTo rows k).foldl (fun a r => foldRow r a)
          ((alLookup (initTable rows) k).getD (placeholderAgg k))) := by
  unfold aggTable
  rw [alLookup_foldl_aggStep, foldl_resolve_filter]
  have hres : rows.filter (fun r => decide (effResolve rows r.key = some k)) = resolvesTo rows k :=
    rfl
  rw [hres]
  cases hl : resolvesTo rows k with
  | nil => rfl
  | cons r rest =>
      cases h0 : alLookup (initTable rows) k with
      | none =>
          simp only [List.foldl_cons, Option.getD_none, foldl_some_agg, Option.getD_some]
          simp
      | some a =>
          simp only [List.foldl_cons, Option.getD_some, foldl_some_agg]
          simp

/-! ## Field-level behaviour of `foldRow` -/

theorem foldRow_total (r : Row) (a : InitiativeAgg) :
    (foldRow r a).total_points =
      a.total_points + (if pointsType r then r.story_points else 0) := by
  unfold foldRow
  cases r.due_date with
  | none =>
      by_cases h : pointsType r = true <;> simp [h]
  | some d =>
      cases a.due_date with
      | none => by_cases h : pointsType r = true <;> simp [h]
      | some b =>
          by_cases hd : d < b <;> by_cases h : pointsType r = true <;> simp [hd, h]

theorem foldRow_done (r : Row) (a : InitiativeAgg) :
    (foldRow r a).done_points =
      a.done_points +
        (if pointsType r then (if r.status = "Done" then r.story_points else 0) else 0) := by
  unfold foldRow
  cases r.due_date with
  | none =>
      by_cases h : pointsType r = true <;> simp [h]
  | some d =>
      cases a.due_date with
      | none => by_cases h : pointsType r = true <;> simp [h]
      | some b =>
          by_cases hd : d < b <;> by_cases h : pointsType r = true <;> simp [hd, h]

theorem foldRow_blocked (r : Row) (a : InitiativeAgg) :
    (foldRow r a).blocked_days = max a.blocked_days r.blocked_days := by
  unfold foldRow
  cases r.due_date with
  | none =>
      by_cases h : pointsType r = true <;> simp [h]
  | some d =>
      cases a.due_date with
      | none => by_cases h : pointsType r = true <;> simp [h]
      | some b =>
          by_cases hd : d < b <;> by_cases h : pointsType r = true <;> simp [hd, h]

theorem foldRow_scope (r : Row) (a : InitiativeAgg) :
    (foldRow r a).scope_changes_14d = a.scope_changes_14d + r.scope_changes_14d := by
  unfold foldRow
  cases r.due_date with
  | none =>
      by_cases h : pointsType r = true <;> simp [h]
  | some d =>
      cases a.due_date with
      | none => by_cases h : pointsType r = true <;> simp [h]
      | some b =>
          by_cases hd : d < b <;> by_cases h : pointsType r = true <;> simp [hd, h]

theorem foldRow_dep (r : Row) (a : InitiativeAgg) :
    (foldRow r a).dependency_count = a.dependency_count + r.blocks := by
  unfold foldRow
  cases r.due_date with
  | none =>
      by_cases h : pointsType r = true <;> simp [h]
  | some d =>
      cases a.due_date with
      | none => by_cases h : pointsType r = true <;> simp [h]
      | some b =>
          by_cases hd : d < b <;> by_cases h : pointsType r = true <;> simp [hd, h]

theorem foldRow_notes (r : Row) (a : InitiativeAgg) :
    (foldRow r a).status_notes = a.status_notes ++ rowNote r := by
  unfold foldRow
  cases r.due_date with
  | none =>
      by_cases h : pointsType r = true <;> simp [h]
  | some d =>
      cases a.due_date with
      | none => by_cases h : pointsType r = true <;> simp [h]
      | some b =>
          by_cases hd : d < b <;> by_cases h : pointsType r = true <;> simp [hd, h]

/-! ## Rollup closed forms over a folded row list -/

theorem foldl_foldRow_dep :
    ∀ (l : List Row) (a : InitiativeAgg),
      (l.foldl (fun a r => foldRow r a) a).dependency_count =
        a.dependency_count + (l.map Row.blocks).sum := by
  intro l
  induction l with
  | nil => intro a; simp
  | cons r rest ih =>
      intro a
      simp only [List.foldl_cons, List.map_cons, List.sum_cons, ih, foldRow_dep]
      ring

theorem foldl_foldRow_scope :
    ∀ (l : List Row) (a : InitiativeAgg),
      (l.foldl (fun a r => foldRow r a) a).scope_changes_14d =
        a.scope_changes_14d + (l.map Row.scope_changes_14d).sum := by
  intro l
  induction l with
  | nil => intro a; simp
  | cons r rest ih =>
      intro a
      simp only [List.foldl_cons, List.map_cons, List.sum_cons, ih, foldRow_scope]
      ring

theorem foldl_foldRow_blocked :
    ∀ (l : List Row) (a : InitiativeAgg),
      (l.foldl (fun a r => foldRow r a) a).blocked_days =
        (l.map Row.blocked_days).foldl max a.blocked_days := by
  intro l
  induction l with
  | nil => intro a; simp
  | cons r rest ih =>
      intro a
      simp only [List.foldl_cons, List.map_cons, ih, foldRow_blocked]

theorem foldl_foldRow_notes :
    ∀ (l : List Row) (a : InitiativeAgg),
      (l.foldl (fun a r => foldRow r a) a).status_notes =
        a.status_notes ++ (l.map rowNote).flatten := by
  intro l
  induction l with
  | nil => intro a; simp
  | cons r rest ih =>
      intro a
      simp only [List.foldl_cons, List.map_cons, ih, foldRow_notes, List.append_assoc,
        List.flatten_cons]

theorem foldl_foldRow_points :
    ∀ (l : List Row) (a : InitiativeAgg),
      (∀ r ∈ l, 0 ≤ r.story_points) →
      0 ≤ a.done_points → a.done_points ≤ a.total_points →
      0 ≤ (l.foldl (fun a r => foldRow r a) a).done_points ∧
        (l.foldl (fun a r => foldRow r a) a).done_points ≤
          (l.foldl (fun a r => foldRow r a) a).total_points := by
  intro l
  induction l with
  | nil => intro a _ h0 h1; exact ⟨h0, h1⟩
  | cons r rest ih =>
      intro a hpts h0 h1
      have hr : 0 ≤ r.story_points := hpts r (List.mem_cons_self _ _)
      simp only [List.foldl_cons]
      refine ih _ (fun r' hr' => hpts r' (List.mem_cons_of_mem _ hr')) ?_ ?_
      · rw [foldRow_done]
        by_cases hp : pointsType r = true
        · by_cases hd : r.status = "Done" <;> simp [hp, hd] <;> omega
        · simp [hp]; omega
      · rw [foldRow_done, foldRow_total]
        by_cases hp : pointsType r = true
        · by_cases hd : r.status = "Done" <;> simp [hp, hd] <;> omega
        · simp [hp]; omega

/-! ## Max-fold arithmetic -/

theorem foldl_max_shift :
    ∀ (l : List Int) (c a : Int), l.foldl max (max c a) = max c (l.foldl max a) := by
  intro l
  induction l with
  | nil => intro c a; rfl
  | cons x xs ih =>
      intro c a
      simp only [List.foldl_cons, max_assoc, ih]

theorem start_le_foldl_max : ∀ (l : List Int) (a : Int), a ≤ l.foldl max a := by
  intro l
  induction l with
  | nil => intro a; exact le_refl a
  | cons x xs ih =>
      intro a
      exact le_trans (le_max_left a x) (ih (max a x))

theorem foldl_max_zero_of_max? (l : List Int) (m : Int) (hm : l.max? = some m)
    (hnn : ∀ x ∈ l, 0 ≤ x) : l.foldl max 0 = m := by
  cases l with
  | nil => simp at hm
  | cons x xs =>
      have hx : 0 ≤ x := hnn x (List.mem_cons_self _ _)
      have hmax : m = xs.foldl max x := by
        have : (x :: xs).max? = some (xs.foldl max x) := rfl
        rw [this] at hm
        exact (Option.some_inj.1 hm).symm
      have h0 : max 0 x = x := max_eq_right hx
      calc (x :: xs).foldl max 0 = xs.foldl max (max 0 x) := rfl
        _ = xs.foldl max x := by rw [h0]
        _ = m := hmax.symm

/-! ## Zeroed origin of table entries -/

theorem initTable_entry (rows : List Row) (k : String) (a : InitiativeAgg)
    (h : alLookup (initTable rows) k = some a) :
    (∃ r, r ∈ rows.filter isInitiativeType ∧ r.key = k ∧ initialAgg r = a) := by
  unfold initTable at h
  rcases alLookup_foldl_insert_origin (fun r => r.key) initialAgg _ _ _ _ h with h' | h'
  · exact h'
  · simp [alLookup] at h'

theorem initTable_entry_zeroed (rows : List Row) (k : String) (a : InitiativeAgg)
    (h : alLookup (initTable rows) k = some a) :
    a.total_points = 0 ∧ a.done_points = 0 ∧ a.blocked_days = 0 ∧
      a.scope_changes_14d = 0 ∧ a.dependency_count = 0 ∧ a.status_notes = [] := by
  rcases initTable_entry rows k a h with ⟨r, _, _, hval⟩
  rw [← hval]
  simp [initialAgg]

theorem placeholder_zeroed (k : String) :
    (placeholderAgg k).total_points = 0 ∧ (placeholderAgg k).done_points = 0 ∧
      (placeholderAgg k).blocked_days = 0 ∧ (placeholderAgg k).scope_changes_14d = 0 ∧
      (placeholderAgg k).dependency_count = 0 ∧ (placeholderAgg k).status_notes = [] := by
  simp [placeholderAgg]

/-- Any aggregate in the final table is the fold of its effectively-resolving
rows over a zeroed starting aggregate. -/
theorem aggTable_entry_shape (rows : List Row) (k : String) (agg : InitiativeAgg)
    (h : alLookup (aggTable rows) k = some agg) :
    ∃ a0 : InitiativeAgg,
      a0.total_points = 0 ∧ a0.done_points = 0 ∧ a0.blocked_days = 0 ∧
      a0.scope_changes_14d = 0 ∧ a0.dependency_count = 0 ∧ a0.status_notes = [] ∧
      agg = (resolvesTo rows k).foldl (fun a r => foldRow r a) a0 := by
  rw [alLookup_aggTable] at h
  by_cases hl : resolvesTo rows k = []
  · rw [if_pos hl] at h
    rcases initTable_entry_zeroed rows k agg h with ⟨h1, h2, h3, h4, h5, h6⟩
    exact ⟨agg, h1, h2, h3, h4, h5, h6, by rw [hl]; rfl⟩
  · rw [if_neg hl] at h
    cases h0 : alLookup (initTable rows) k with
    | none =>
        refine ⟨placeholderAgg k, ?_, ?_, ?_, ?_, ?_, ?_, ?_⟩ <;>
          first
            | exact (placeholder_zeroed k).1
            | exact (placeholder_zeroed k).2.1
            | exact (placeholder_zeroed k).2.2.1
            | exact (placeholder_zeroed k).2.2.2.1
            | exact (placeholder_zeroed k).2.2.2.2.1
            | exact (placeholder_zeroed k).2.2.2.2.2
            | (rw [h0] at h; exact (Option.some_inj.1 h).symm)
    | some a =>
        rcases initTable_entry_zeroed rows k a h0 with ⟨h1, h2, h3, h4, h5, h6⟩
        refine ⟨a, h1, h2, h3, h4, h5, h6, ?_⟩
        rw [h0] at h
        exact (Option.some_inj.1 h).symm

/-! ## The rational scorer equals its integer mirror -/

theorem pyTrunc_of_nonneg {q : Rat} (h : 0 ≤ q) : pyTrunc q = ⌊q⌋ := by
  simp [pyTrunc, h]

theorem clamp01_of_mem {q : Rat} (h0 : 0 ≤ q) (h1 : q ≤ 1) : clamp01 q = q := by
  simp [clamp01]
  rw [min_eq_right h1, max_eq_right h0]

theorem floor_intCast_div_pos (a t : Int) (ht : 0 < t) : ⌊(a : Rat) / (t : Rat)⌋ = a / t := by
  lift t to ℕ using le_of_lt ht
  exact_mod_cast Rat.floor_intCast_div_natCast a t

theorem progress_penalty_eq_counts (done total : Int) :
    progress_penalty (pct_done done total) = progressPenaltyCounts done total := by
  unfold pct_done progressPenaltyCounts
  by_cases ht : 0 < total
  · rw [if_pos ht, if_pos ht]
    have htq : (0 : Rat) < (total : Rat) := by exact_mod_cast ht
    by_cases hd0 : done ≤ 0
    · have hq : (done : Rat) / (total : Rat) ≤ 0 :=
        div_nonpos_iff.2 (Or.inr ⟨by exact_mod_cast hd0, le_of_lt htq⟩)
      have hc : clamp01 ((done : Rat) / (total : Rat)) = 0 := by
        unfold clamp01
        rw [min_eq_right (le_trans hq (by norm_num)), max_eq_left hq]
      rw [if_pos hd0]
      unfold progress_penalty
      rw [hc]
      norm_num [pyTrunc_of_nonneg]
    · rw [if_neg hd0]
      by_cases htd : total ≤ done
      · have hq : (1 : Rat) ≤ (done : Rat) / (total : Rat) :=
          (one_le_div htq).2 (by exact_mod_cast htd)
        have hc : clamp01 ((done : Rat) / (total : Rat)) = 1 := by
          unfold clamp01
          rw [min_eq_left hq, max_eq_right (by norm_num : (0:Rat) ≤ 1)]
        rw [if_pos htd]
        unfold progress_penalty
        rw [hc]
        norm_num [pyTrunc]
      · rw [if_neg htd]
        push_neg at hd0 htd
        have hq0 : (0 : Rat) ≤ (done : Rat) / (total : Rat) :=
          div_nonneg (by exact_mod_cast le_of_lt hd0) (le_of_lt htq)
        have hq1 : (done : Rat) / (total : Rat) ≤ 1 :=
          (div_le_one htq).2 (by exact_mod_cast le_of_lt htd)
        unfold progress_penalty
        rw [clamp01_of_mem hq0 hq1]
        have harg : (1 - (done : Rat) / (total : Rat)) * 30 =
            ((30 * (total - done) : Int) : Rat) / (total : Rat) := by
          field_simp
          ring
        have hnn : 0 ≤ (1 - (done : Rat) / (total : Rat)) * 30 := by
          have : (done : Rat) / (total : Rat) ≤ 1 := hq1
          nlinarith
        rw [pyTrunc_of_nonneg hnn, harg, floor_intCast_div_pos _ _ ht]
  · rw [if_neg ht, if_neg ht]
    unfold progress_penalty clamp01
    norm_num [pyTrunc]

theorem pct_lt_frac_iff (done total num den : Int) (hnum : 0 < num) (hden : 0 < den) :
    pct_done done total < (num : Rat) / (den : Rat) ↔ pctLtFrac done total num den = true := by
  unfold pct_done pctLtFrac
  by_cases ht : 0 < total
  · rw [if_pos ht, if_pos ht]
    have htq : (0 : Rat) < (total : Rat) := by exact_mod_cast ht
    have hdq : (0 : Rat) < (den : Rat) := by exact_mod_cast hden
    rw [div_lt_div_iff₀ htq hdq]
    constructor
    · intro h
      have h2 : (done * den : Int) < num * total := by exact_mod_cast h
      have hcomm : den * done = done * den := mul_comm den done
      simp only [decide_eq_true_eq]
      linarith
    · intro h
      have h2 : den * done < num * total := by simpa using h
      have hcomm : den * done = done * den := mul_comm den done
      have h3 : (done * den : Int) < num * total := by linarith
      exact_mod_cast h3
  · rw [if_neg ht, if_neg ht]
    have hpos : (0 : Rat) < (num : Rat) / (den : Rat) :=
      div_pos (by exact_mod_cast hnum) (by exact_mod_cast hden)
    simp [hpos]

theorem due_penalty_eq_counts (done total : Int) (dtt : Option Int) :
    due_penalty (pct_done done total) dtt = duePenaltyCounts done total dtt := by
  cases dtt with
  | none => rfl
  | some d =>
      unfold due_penalty duePenaltyCounts
      have h45 : pct_done done total < (4 : Rat) / 5 ↔ pctLtFrac done total 4 5 = true := by
        have := pct_lt_frac_iff done total 4 5 (by norm_num) (by norm_num)
        rw [← this]
        norm_num
      have h35 : pct_done done total < (3 : Rat) / 5 ↔ pctLtFrac done total 3 5 = true := by
        have := pct_lt_frac_iff done total 3 5 (by norm_num) (by norm_num)
        rw [← this]
        norm_num
      simp only [h45, h35]

theorem dcs_eq_counts (done total blocked_days scope_changes_14d dependency_count : Int)
    (critical_dependency : Bool) (days_to_target : Option Int) (has_blocked_items : Bool) :
    dcs_from_signals (pct_done done total) blocked_days scope_changes_14d dependency_count
        critical_dependency days_to_target has_blocked_items =
      dcsFromCounts done total blocked_days scope_changes_14d dependency_count
        critical_dependency days_to_target has_blocked_items := by
  unfold dcs_from_signals dcsFromCounts
  rw [progress_penalty_eq_counts, due_penalty_eq_counts]

theorem finalizeRecord_eq_int (we : Int) (agg : InitiativeAgg) :
    finalizeRecord we agg = finalizeRecordInt we agg := by
  unfold finalizeRecord finalizeRecordInt
  have h310 : pct_done agg.done_points agg.total_points < (3 : Rat) / 10 ↔
      pctLtFrac agg.done_points agg.total_points 3 10 = true := by
    have := pct_lt_frac_iff agg.done_points agg.total_points 3 10 (by norm_num) (by norm_num)
    rw [← this]
    norm_num
  have h45 : pct_done agg.done_points agg.total_points < (4 : Rat) / 5 ↔
      pctLtFrac agg.done_points agg.total_points 4 5 = true := by
    have := pct_lt_frac_iff agg.done_points agg.total_points 4 5 (by norm_num) (by norm_num)
    rw [← this]
    norm_num
  simp only [dcs_eq_counts, h310, h45]

theorem transform_eq_transformInt (rows : List Row) (week_ending : String) :
    transform rows week_ending = transformInt rows week_ending := by
  unfold transform transformInt transformWith
  have hfin : ∀ we, finalizeRecord we = finalizeRecordInt we := fun we =>
    funext (finalizeRecord_eq_int we)
  cases parse_date week_ending with
  | none => rfl
  | some we => simp only [hfin]

/-! ## Score bounds and band facts -/

theorem dcs_nonneg (pct : Rat) (bd sc dep : Int) (crit : Bool) (dtt : Option Int) (hb : Bool) :
    0 ≤ dcs_from_signals pct bd sc dep crit dtt hb :=
  le_max_left 0 _

theorem dcs_le_100 (pct : Rat) (bd sc dep : Int) (crit : Bool) (dtt : Option Int) (hb : Bool) :
    dcs_from_signals pct bd sc dep crit dtt hb ≤ 100 :=
  max_le (by norm_num) (min_le_left _ _)

theorem band_green_iff (d : Int) : band_from_dcs d = "Green" ↔ 80 ≤ d := by
  have hyg : ("Yellow" : String) ≠ "Green" := by decide
  have hrg : ("Red" : String) ≠ "Green" := by decide
  unfold band_from_dcs
  by_cases h : d ≥ 80
  · simp only [if_pos h]
    constructor
    · intro _; omega
    · intro _; trivial
  · rw [if_neg h]
    by_cases h2 : d ≥ 60
    · simp only [if_pos h2]
      constructor
      · intro hc; exact absurd hc hyg
      · intro hc; omega
    · simp only [if_neg h2]
      constructor
      · intro hc; exact absurd hc hrg
      · intro hc; omega

theorem band_yellow_iff (d : Int) : band_from_dcs d = "Yellow" ↔ 60 ≤ d ∧ d ≤ 79 := by
  have hgy : ("Green" : String) ≠ "Yellow" := by decide
  have hry : ("Red" : String) ≠ "Yellow" := by decide
  unfold band_from_dcs
  by_cases h : d ≥ 80
  · simp only [if_pos h]
    constructor
    · intro hc; exact absurd hc hgy
    · intro hc; omega
  · rw [if_neg h]
    by_cases h2 : d ≥ 60
    · simp only [if_pos h2]
      constructor
      · intro _; omega
      · intro _; trivial
    · simp only [if_neg h2]
      constructor
      · intro hc; exact absurd hc hry
      · intro hc; omega

theorem band_red_iff (d : Int) : band_from_dcs d = "Red" ↔ d < 60 := by
  have hgr : ("Green" : String) ≠ "Red" := by decide
  have hyr : ("Yellow" : String) ≠ "Red" := by decide
  unfold band_from_dcs
  by_cases h : d ≥ 80
  · simp only [if_pos h]
    constructor
    · intro hc; exact absurd hc hgr
    · intro hc; omega
  · rw [if_neg h]
    by_cases h2 : d ≥ 60
    · simp only [if_pos h2]
      constructor
      · intro hc; exact absurd hc hyr
      · intro hc; omega
    · simp only [if_neg h2]
      constructor
      · intro _; omega
      · intro _; trivial

/-! ## Shape of a successful `transform` -/

theorem transform_ok_shape (rows : List Row) (we : String) (snap : Snapshot)
    (h : transform rows we = Except.ok snap) :
    ∃ wd, parse_date we = some wd ∧
      snap.initiatives =
        stableSort keyLE (((aggTable rows).map Prod.snd).map (finalizeRecord wd)) := by
  unfold transform transformWith at h
  cases hpd : parse_date we with
  | none =>
      rw [hpd] at h
      exact absurd h (by simp)
  | some wd =>
      rw [hpd] at h
      simp only [Except.ok.injEq] at h
      exact ⟨wd, rfl, by rw [← h]; rfl⟩

theorem finalizeRecord_dcs (we : Int) (agg : InitiativeAgg) :
    (finalizeRecord we agg).dcs_current =
      dcs_from_signals (pct_done agg.done_points agg.total_points) agg.blocked_days
        agg.scope_changes_14d agg.dependency_count agg.critical_dependency
        (agg.due_date.map (fun d => d - we)) (hasBlockedItems agg) := rfl

theorem finalizeRecord_band (we : Int) (agg : InitiativeAgg) :
    (finalizeRecord we agg).band = band_from_dcs ((finalizeRecord we agg).dcs_current) := rfl

theorem finalizeRecord_prior (we : Int) (agg : InitiativeAgg) :
    (finalizeRecord we agg).dcs_prior =
      max 0 (min 100 ((finalizeRecord we agg).dcs_current +
        min 8 (agg.scope_changes_14d * 2 + (if hasBlockedItems agg then 2 else 0)))) := rfl

/-! ## Order facts for the snapshot sort key -/

theorem charListLt_trans :
    ∀ (l1 l2 l3 : List Char), charListLt l1 l2 = true → charListLt l2 l3 = true →
      charListLt l1 l3 = true := by
  intro l1
  induction l1 with
  | nil =>
      intro l2 l3 h12 h23
      cases l2 with
      | nil => exact absurd h12 (by simp [charListLt])
      | cons d ds =>
          cases l3 with
          | nil => exact absurd h23 (by simp [charListLt])
          | cons e es => simp [charListLt]
  | cons c cs ih =>
      intro l2 l3 h12 h23
      cases l2 with
      | nil => exact absurd h12 (by simp [charListLt])
      | cons d ds =>
          cases l3 with
          | nil => exact absurd h23 (by simp [charListLt])
          | cons e es =>
              simp only [charListLt] at h12 h23 ⊢
              by_cases h1 : c.toNat < d.toNat
              · by_cases h2 : d.toNat < e.toNat
                · have hce : c.toNat < e.toNat := by omega
                  simp [hce]
                · by_cases h4 : d.toNat = e.toNat
                  · have hce : c.toNat < e.toNat := by omega
                    simp [hce]
                  · simp [h2, h4] at h23
              · by_cases h3 : c.toNat = d.toNat
                · simp only [if_neg h1, if_pos h3] at h12
                  by_cases h2 : d.toNat < e.toNat
                  · have hce : c.toNat < e.toNat := by omega
                    simp [hce]
                  · by_cases h4 : d.toNat = e.toNat
                    · simp only [if_neg h2, if_pos h4] at h23
                      have h5 : ¬ c.toNat < e.toNat := by omega
                      have h6 : c.toNat = e.toNat := by omega
                      simp only [if_neg h5, if_pos h6]
                      exact ih ds es h12 h23
                    · simp [h2, h4] at h23
                · simp [h1, h3] at h12

theorem charListLt_trichotomy :
    ∀ (l1 l2 : List Char), charListLt l1 l2 = true ∨ l1 = l2 ∨ charListLt l2 l1 = true := by
  intro l1
  induction l1 with
  | nil =>
      intro l2
      cases l2 with
      | nil => exact Or.inr (Or.inl rfl)
      | cons d ds => exact Or.inl (by simp [charListLt])
  | cons c cs ih =>
      intro l2
      cases l2 with
      | nil => exact Or.inr (Or.inr (by simp [charListLt]))
      | cons d ds =>
          rcases Nat.lt_trichotomy c.toNat d.toNat with h | h | h
          · exact Or.inl (by simp [charListLt, h])
          · have hcd : c = d := by
              have h1 := Char.ofNat_toNat c
              have h2 := Char.ofNat_toNat d
              rw [← h1, ← h2, h]
            rcases ih ds with h' | h' | h'
            · refine Or.inl ?_
              simp [charListLt, h, h']
            · exact Or.inr (Or.inl (by rw [hcd, h']))
            · refine Or.inr (Or.inr ?_)
              simp [charListLt, h.symm, h']
          · exact Or.inr (Or.inr (by simp [charListLt, h]))

theorem strLt_trans {a b c : String} (h1 : strLt a b = true) (h2 : strLt b c = true) :
    strLt a c = true :=
  charListLt_trans a.data b.data c.data h1 h2

theorem strLt_trichotomy (a b : String) : strLt a b = true ∨ a = b ∨ strLt b a = true := by
  rcases charListLt_trichotomy a.data b.data with h | h | h
  · exact Or.inl h
  · refine Or.inr (Or.inl ?_)
    cases a; cases b
    exact congrArg String.mk (by simpa using h)
  · exact Or.inr (Or.inr h)

theorem strLt_irrefl (a : String) : ¬ strLt a a = true := by
  suffices hcl : ∀ l : List Char, ¬ charListLt l l = true from hcl a.data
  intro l
  induction l with
  | nil => simp [charListLt]
  | cons c cs ih => simpa [charListLt] using ih

theorem keyLE_trans (a b c : InitRecord) (h1 : keyLE a b = true) (h2 : keyLE b c = true) :
    keyLE a c = true := by
  unfold keyLE at h1 h2 ⊢
  by_cases hab : strLt a.band b.band = true
  · by_cases hbc : strLt b.band c.band = true
    · simp [strLt_trans hab hbc]
    · rw [if_neg hbc] at h2
      by_cases heb : b.band = c.band
      · rw [← heb]
        simp [hab]
      · rw [if_neg heb] at h2
        exact absurd h2 (by simp)
  · rw [if_neg hab] at h1
    by_cases heq : a.band = b.band
    · rw [if_pos heq] at h1
      by_cases hbc : strLt b.band c.band = true
      · rw [heq]
        simp [hbc]
      · rw [if_neg hbc] at h2
        by_cases heb : b.band = c.band
        · rw [if_pos heb] at h2
          rw [heq, heb]
          have hno : ¬ strLt c.band c.band = true := strLt_irrefl c.band
          rw [if_neg hno, if_pos rfl]
          simp only [decide_eq_true_eq] at h1 h2 ⊢
          omega
        · rw [if_neg heb] at h2
          exact absurd h2 (by simp)
    · rw [if_neg heq] at h1
      exact absurd h1 (by simp)

theorem keyLE_total (a b : InitRecord) : keyLE a b = true ∨ keyLE b a = true := by
  unfold keyLE
  rcases strLt_trichotomy a.band b.band with h | h | h
  · exact Or.inl (by simp [h])
  · rcases Int.le_total a.dcs_current b.dcs_current with hd | hd
    · refine Or.inl ?_
      by_cases hl : strLt a.band b.band = true
      · simp [hl]
      · simp [hl, h, hd]
    · refine Or.inr ?_
      by_cases hl : strLt b.band a.band = true
      · simp [hl]
      · simp [hl, h.symm, hd]
  · exact Or.inr (by simp [h])

/-! ## Rounding bounds for the heatmap scorer -/

theorem pyRound_nonneg {q : Rat} (h : 0 ≤ q) : 0 ≤ pyRound q := by
  unfold pyRound
  by_cases hh : q - ⌊q⌋ = 1 / 2
  · rw [if_pos hh]
    have h0 : (0 : Int) ≤ ⌊q⌋ := Int.floor_nonneg.2 h
    by_cases he : 2 ∣ ⌊q⌋ <;> simp [he] <;> omega
  · rw [if_neg hh]
    exact Int.floor_nonneg.2 (by linarith)

theorem pyRound_le {q : Rat} {n : Int} (h : q ≤ (n : Rat)) : pyRound q ≤ n := by
  unfold pyRound
  by_cases hh : q - ⌊q⌋ = 1 / 2
  · rw [if_pos hh]
    have hq : (⌊q⌋ : Rat) + 1 / 2 = q := by linarith
    have hltq : (⌊q⌋ : Rat) < (n : Rat) := by linarith
    have hlt : ⌊q⌋ < n := by exact_mod_cast hltq
    by_cases he : 2 ∣ ⌊q⌋ <;> simp [he] <;> omega
  · rw [if_neg hh]
    have hlt : ⌊q + 1 / 2⌋ < n + 1 := Int.floor_lt.2 (by push_cast; linarith)
    omega

theorem score_0_10_bounds (v m : Rat) : 0 ≤ score_0_10 v m ∧ score_0_10 v m ≤ 10 := by
  unfold score_0_10
  by_cases h : m ≤ 0
  · simp [h]
  · rw [if_neg h]
    have hlo : 0 ≤ clamp (v / m * 10) 0 10 := le_max_left _ _
    have hhi : clamp (v / m * 10) 0 10 ≤ ((10 : Int) : Rat) := by
      push_cast
      exact max_le (by norm_num) (min_le_left _ _)
    exact ⟨pyRound_nonneg hlo, pyRound_le hhi⟩

/-! ## Status-note membership -/

theorem startsWith_blocked_note (s : String) :
    startsWithStr "Blocked:" (strCat "Blocked: " s) = true := by
  unfold startsWithStr strCat
  have hpre : ("Blocked:".data) <+: ("Blocked: ".data) := by
    rw [← List.isPrefixOf_iff_prefix]
    decide
  have : ("Blocked:".data) <+: ("Blocked: ".data ++ s.data) :=
    hpre.trans (List.prefix_append _ _)
  rw [List.isPrefixOf_iff_prefix]
  exact this

theorem hasBlockedItems_iff (rows : List Row) (k : String) (agg : InitiativeAgg)
    (h : alLookup (aggTable rows) k = some agg) :
    hasBlockedItems agg = true ↔
      ∃ r ∈ resolvesTo rows k, r.status = "Blocked" ∧ r.summary ≠ "" := by
  rcases aggTable_entry_shape rows k agg h with ⟨a0, _, _, _, _, _, hnotes, hshape⟩
  have hn : agg.status_notes = ((resolvesTo rows k).map rowNote).flatten := by
    rw [hshape, foldl_foldRow_notes, hnotes]
    simp
  unfold hasBlockedItems
  rw [hn]
  constructor
  · intro hany
    rcases List.any_eq_true.1 hany with ⟨n, hnmem, hstart⟩
    rcases List.mem_flatten.1 hnmem with ⟨ns, hns, hnin⟩
    rcases List.mem_map.1 hns with ⟨r, hr, hrn⟩
    refine ⟨r, hr, ?_⟩
    by_cases hc : r.status = "Blocked" ∧ r.summary ≠ ""
    · exact hc
    · rw [← hrn] at hnin
      unfold rowNote at hnin
      rw [if_neg hc] at hnin
      simp at hnin
  · rintro ⟨r, hr, hc⟩
    refine List.any_eq_true.2 ⟨strCat "Blocked: " r.summary, ?_, startsWith_blocked_note _⟩
    refine List.mem_flatten.2 ⟨rowNote r, List.mem_map.2 ⟨r, hr, rfl⟩, ?_⟩
    unfold rowNote
    rw [if_pos hc]
    simp

/-! ## Drift sign facts -/

theorem aggTable_scope_nonneg (rows : List Row) (k : String) (agg : InitiativeAgg)
    (h : alLookup (aggTable rows) k = some agg)
    (hrows : ∀ r ∈ rows, 0 ≤ r.scope_changes_14d) : 0 ≤ agg.scope_changes_14d := by
  rcases aggTable_entry_shape rows k agg h with ⟨a0, _, _, _, hsc0, _, _, hshape⟩
  rw [hshape, foldl_foldRow_scope, hsc0]
  have : 0 ≤ ((resolvesTo rows k).map Row.scope_changes_14d).sum := by
    apply List.sum_nonneg
    intro x hx
    rcases List.mem_map.1 hx with ⟨r, hr, hrx⟩
    have hrr : r ∈ rows := (List.mem_filter.1 hr).1
    rw [← hrx]
    exact hrows r hrr
  omega

theorem finalizeRecord_prior_ge (we : Int) (agg : InitiativeAgg)
    (hsc : 0 ≤ agg.scope_changes_14d) :
    (finalizeRecord we agg).dcs_current ≤ (finalizeRecord we agg).dcs_prior := by
  have hle : (finalizeRecord we agg).dcs_current ≤ 100 := by
    rw [finalizeRecord_dcs]
    exact dcs_le_100 _ _ _ _ _ _ _
  rw [finalizeRecord_prior]
  by_cases hhb : hasBlockedItems agg = true <;> simp [hhb] <;> omega

/-! ## Key uniqueness of the tables -/

theorem nodup_keys_alInsert {α : Type} (t : List (String × α)) (k : String) (v : α)
    (h : (t.map Prod.fst).Nodup) : ((alInsert t k v).map Prod.fst).Nodup := by
  induction t with
  | nil => simp [alInsert]
  | cons hd tl ih =>
      obtain ⟨k0, v0⟩ := hd
      by_cases h0 : k0 = k
      · simpa [alInsert, h0] using h
      · simp only [List.map_cons, List.nodup_cons] at h
        obtain ⟨hk0, htl⟩ := h
        have hmem : k0 ∉ (alInsert tl k v).map Prod.fst := by
          intro hc
          have : k0 ∈ (alInsert tl k v).map Prod.fst := hc
          -- membership in keys of an insert is the new key or an old key
          have hsub : ∀ x, x ∈ (alInsert tl k v).map Prod.fst →
              x = k ∨ x ∈ tl.map Prod.fst := by
            clear hc this hk0 htl ih
            intro x hx
            induction tl with
            | nil => simpa [alInsert] using hx
            | cons hd2 tl2 ih2 =>
                obtain ⟨k1, v1⟩ := hd2
                by_cases h1 : k1 = k
                · simp [alInsert, h1] at hx
                  rcases hx with hx | hx
                  · exact Or.inl hx
                  · exact Or.inr (by simp [hx])
                · simp [alInsert, h1] at hx
                  rcases hx with hx | hx
                  · exact Or.inr (by simp [hx])
                  · rcases ih2 (by simpa using hx) with hx' | hx'
                    · exact Or.inl hx'
                    · refine Or.inr (List.mem_map.2 ?_)
                      rcases List.mem_map.1 hx' with ⟨p, hp, hpx⟩
                      exact ⟨p, List.mem_cons_of_mem _ hp, hpx⟩
          rcases hsub k0 this with hx | hx
          · exact h0 hx
          · exact hk0 hx
        simp only [alInsert, if_neg h0, List.map_cons, List.nodup_cons]
        exact ⟨hmem, ih htl⟩

theorem nodup_keys_foldl_insert {α β : Type} (g : α → String) (f : α → β) :
    ∀ (l : List α) (t : List (String × β)), (t.map Prod.fst).Nodup →
      ((l.foldl (fun t r => alInsert t (g r) (f r)) t).map Prod.fst).Nodup := by
  intro l
  induction l with
  | nil => intro t h; exact h
  | cons r rest ih => intro t h; exact ih _ (nodup_keys_alInsert t (g r) (f r) h)

theorem nodup_keys_initTable (rows : List Row) : ((initTable rows).map Prod.fst).Nodup := by
  unfold initTable
  exact nodup_keys_foldl_insert (fun r => r.key) initialAgg _ [] (by simp)

theorem nodup_keys_aggTable (rows : List Row) : ((aggTable rows).map Prod.fst).Nodup := by
  unfold aggTable
  suffices hgen : ∀ (l : List Row) (t : List (String × InitiativeAgg)), (t.map Prod.fst).Nodup →
      ((l.foldl (aggStep rows) t).map Prod.fst).Nodup from
    hgen rows _ (nodup_keys_initTable rows)
  intro l
  induction l with
  | nil => intro t h; exact h
  | cons r rest ih =>
      intro t h
      apply ih
      unfold aggStep
      cases effResolve rows r.key with
      | none => exact h
      | some ik => exact nodup_keys_alInsert t ik _ h

theorem alLookup_of_mem_nodup {α : Type} :
    ∀ (t : List (String × α)) (k : String) (v : α), (t.map Prod.fst).Nodup →
      (k, v) ∈ t → alLookup t k = some v := by
  intro t
  induction t with
  | nil => intro k v _ hmem; simp at hmem
  | cons hd tl ih =>
      intro k v hnd hmem
      obtain ⟨k0, v0⟩ := hd
      simp only [List.map_cons, List.nodup_cons] at hnd
      obtain ⟨hk0, htl⟩ := hnd
      rcases List.mem_cons.1 hmem with hm | hm
      · injection hm with hk hv
        subst hk
        subst hv
        simp [alLookup]
      · have hkne : k ≠ k0 := by
          intro he
          subst he
          exact hk0 (List.mem_map.2 ⟨(k, v), hm, rfl⟩)
        simp only [alLookup, if_neg hkne]
        exact ih k v htl hm

/-- A value in the aggregation table is looked up by some key. -/
theorem mem_values_aggTable (rows : List Row) (agg : InitiativeAgg)
    (h : agg ∈ (aggTable rows).map Prod.snd) : ∃ k, alLookup (aggTable rows) k = some agg := by
  rcases List.mem_map.1 h with ⟨⟨k, a⟩, hmem, ha⟩
  subst ha
  exact ⟨k, alLookup_of_mem_nodup _ k _ (nodup_keys_aggTable rows) hmem⟩

/-! ## Correctly rounded binary64 model

The program's scores are computed with IEEE doubles.  `fl64` is the correctly
rounded (round to nearest, ties to even) binary64 value of a rational, valid
on the normal range (no subnormals or overflow arise in these computations);
`progress_penalty_fp` is the progress-anchoring subtraction exactly as the
interpreter evaluates it: every intermediate result rounded to binary64. -/

/-- Correctly rounded binary64 value of a rational: significand of 53 bits,
round to nearest with ties to even. -/
def fl64 (q : Rat) : Rat :=
  if q = 0 then 0
  else
    (if q < 0 then -1 else 1) *
      (pyRound (|q| / (2 : Rat) ^ (Int.log 2 |q| - 52)) : Rat) *
      (2 : Rat) ^ (Int.log 2 |q| - 52)

theorem int_log2_eq {a : Rat} {e : Int} (ha : 0 < a) (h1 : (2 : Rat) ^ e ≤ a)
    (h2 : a < (2 : Rat) ^ (e + 1)) : Int.log 2 a = e := by
  have hb : 1 < (2 : Nat) := one_lt_two
  have hle : e ≤ Int.log 2 a := by
    rw [← Int.zpow_le_iff_le_log hb ha]
    exact_mod_cast h1
  have hlt : Int.log 2 a < e + 1 := by
    rw [← Int.lt_zpow_iff_log_lt hb ha]
    exact_mod_cast h2
  omega

theorem fl64_eval {q : Rat} {e m : Int} (hq : 0 < q) (h1 : (2 : Rat) ^ e ≤ q)
    (h2 : q < (2 : Rat) ^ (e + 1)) (hm : pyRound (q / (2 : Rat) ^ (e - 52)) = m) :
    fl64 q = (m : Rat) * (2 : Rat) ^ (e - 52) := by
  unfold fl64
  rw [if_neg (ne_of_gt hq), if_neg (not_lt.2 (le_of_lt hq)), abs_of_pos hq,
    int_log2_eq hq h1 h2, hm, one_mul]

/-- The progress-anchoring subtraction as the interpreter evaluates it:
`int((1.0 - max(0.0, min(1.0, done/total))) * 30)` with the division,
subtraction and multiplication each correctly rounded to binary64 (`pct_done`
is the exact 0.0 when `total_points` is not positive, and the float `max`,
`min` and `int()` are exact selections/truncation). -/
def progress_penalty_fp (done total : Int) : Int :=
  let pct : Rat := if 0 < total then fl64 ((done : Rat) / (total : Rat)) else 0
  let c : Rat := max 0 (min 1 pct)
  pyTrunc (fl64 (fl64 (1 - c) * 30))

/-! ## Concrete fixtures -/

instance : Inhabited InitRecord :=
  ⟨⟨"", "", 0, 0, "", 0, 0, 0, 0, false, 21, []⟩⟩

/-- Initiative row used by the concrete fixtures. -/
def rowI1 : Row :=
  { key := "I1", issue_type := "Initiative", summary := "Init One",
    status := "In Progress", parent_key := "" }

/-- A one-point Done story under `I1`. -/
def rowS1 : Row :=
  { key := "S1", issue_type := "Story", summary := "Story One",
    status := "Done", parent_key := "I1", story_points := 1 }

/-- A six-point in-progress story under `I1`. -/
def rowS2 : Row :=
  { key := "S2", issue_type := "Story", summary := "Story Two",
    status := "In Progress", parent_key := "I1", story_points := 6 }

/-- A well-formed three-row input: one initiative, 1 of 7 points done. -/
def demoRows : List Row := [rowI1, rowS1, rowS2]

/-- The snapshot `transform` produces for `demoRows` (extracted through the
integer mirror so concrete proofs can evaluate it). -/
def demoSnap : Snapshot := (transformInt demoRows "2026-02-06").toOption.getD default

/-- The aggregate `transform` builds for `I1` from `demoRows`. -/
def demoAgg : InitiativeAgg := (alLookup (aggTable demoRows) "I1").getD (placeholderAgg "I1")

/-- The single record of `demoSnap`. -/
def demoRec : InitRecord := demoSnap.initiatives.getD 0 default

/-- Story whose points come from the CSV cell `-1` (C1 counterexample). -/
def c1Rows : List Row :=
  [rowI1,
   { key := "S4", issue_type := "Story", summary := "Neg",
     status := "Done", parent_key := "I1", story_points := parse_int "-1" }]

def c1Agg : InitiativeAgg := (alLookup (aggTable c1Rows) "I1").getD (placeholderAgg "I1")

/-- A Blocked story with an empty summary (C3 counterexample). -/
def c3Rows : List Row :=
  [rowI1,
   { key := "S3", issue_type := "Story", summary := "",
     status := "Blocked", parent_key := "I1" }]

def c3Agg : InitiativeAgg := (alLookup (aggTable c3Rows) "I1").getD (placeholderAgg "I1")

def c3Snap : Snapshot := (transformInt c3Rows "2026-02-06").toOption.getD default

/-- A Blocked story with a real summary (C3 witness). -/
def c3wRows : List Row :=
  [rowI1,
   { key := "S6", issue_type := "Story", summary := "Key task",
     status := "Blocked", parent_key := "I1" }]

def c3wAgg : InitiativeAgg := (alLookup (aggTable c3wRows) "I1").getD (placeholderAgg "I1")

/-- Rows whose `Blocked Days` cells are all negative (C5 counterexample). -/
def c5Rows : List Row :=
  [{ key := "I1", issue_type := "Initiative", summary := "Init One",
     status := "In Progress", parent_key := "", blocked_days := parse_int "-3" },
   { key := "S5", issue_type := "Story", summary := "Blk",
     status := "In Progress", parent_key := "I1", blocked_days := parse_int "-2" }]

def c5Agg : InitiativeAgg := (alLookup (aggTable c5Rows) "I1").getD (placeholderAgg "I1")

/-- A three-node parent cycle with no Initiative anywhere (C4 fixture). -/
def cycRows : List Row :=
  [{ key := "A", issue_type := "Epic", summary := "a", status := "In Progress", parent_key := "B" },
   { key := "B", issue_type := "Epic", summary := "b", status := "In Progress", parent_key := "C" },
   { key := "C", issue_type := "Epic", summary := "c", status := "In Progress", parent_key := "A" }]

def cycPm : List (String × String) := build_parent_map cycRows

def cycIdx : List (String × Row) := index_rows cycRows

/-! ## Claims -/

/-- C1, as stated, is false: `parse_int` accepts negative numerals (the Row
Normalizer does not clamp), so a Done story whose `Story Points` cell is `-1`
drives `done_points` to `-1`, violating `0 ≤ done_points` in the aggregate
that folding `c1Rows` produces for `I1`. -/
theorem c1_counterexample :
    parse_int "-1" = -1 ∧
    alLookup (aggTable c1Rows) "I1" = some c1Agg ∧
    c1Agg.done_points = -1 ∧ c1Agg.total_points = -1 ∧
    ¬ (0 ≤ c1Agg.done_points ∧ c1Agg.done_points ≤ c1Agg.total_points) := by
  refine ⟨by decide, by decide, by decide, by decide, ?_⟩
  intro hc
  have : c1Agg.done_points = -1 := by decide
  omega

/-- C1 (amended): for every initiative aggregate produced by folding a list of
normalized rows all of whose `story_points` are non-negative, the invariant
`0 ≤ done_points ≤ total_points` holds once all rows are processed. -/
theorem c1_points_invariant (rows : List Row) (hpts : ∀ r ∈ rows, 0 ≤ r.story_points)
    (k : String) (agg : InitiativeAgg) (h : alLookup (aggTable rows) k = some agg) :
    0 ≤ agg.done_points ∧ agg.done_points ≤ agg.total_points := by
  rcases aggTable_entry_shape rows k agg h with ⟨a0, ht0, hd0, _, _, _, _, hshape⟩
  rw [hshape]
  apply foldl_foldRow_points
  · intro r hr
    exact hpts r ((List.mem_filter.1 hr).1)
  · omega
  · omega

/-- Witness: the invariant theorem applied to the concrete `demoRows` input. -/
theorem c1_points_invariant_witness :
    (∀ r ∈ demoRows, 0 ≤ r.story_points) ∧
    alLookup (aggTable demoRows) "I1" = some demoAgg ∧
    (0 ≤ demoAgg.done_points ∧ demoAgg.done_points ≤ demoAgg.total_points) :=
  ⟨by decide, by decide,
    c1_points_invariant demoRows (by decide) "I1" demoAgg (by decide)⟩

/-- C2, as stated, is false: the code truncates the progress penalty with
Python `int()`, not `round`.  For `done = 1, total = 7` the interpreter's
double evaluation subtracts 25 (`progress_penalty_fp 1 7 = 25`; the exact
evaluation agrees here, so `I1` scores 75 in the snapshot built from
`demoRows`), while `round((1 − 1/7) × 30) = 26` would leave 74. -/
theorem c2_counterexample :
    transform demoRows "2026-02-06" = Except.ok demoSnap ∧
    alLookup (aggTable demoRows) "I1" = some demoAgg ∧
    demoAgg.done_points = 1 ∧ demoAgg.total_points = 7 ∧
    demoSnap.initiatives.map (fun r => (r.id, r.dcs_current)) = [("I1", 75)] ∧
    progress_penalty_fp 1 7 = 25 ∧
    pyRound ((1 - pct_done 1 7) * 30) = 26 ∧
    (25 : Int) ≠ 26 := by
  refine ⟨?_, by decide, by decide, by decide, by decide, ?_, ?_, by decide⟩
  · rw [transform_eq_transformInt]
    decide
  · unfold progress_penalty_fp
    rw [if_pos (by norm_num : (0 : Int) < 7)]
    have hcast : ((1 : Int) : Rat) / ((7 : Int) : Rat) = 1 / 7 := by norm_num
    rw [hcast]
    have h1 : fl64 (1 / 7 : Rat) = 2573485501354569 / 18014398509481984 := by
      rw [fl64_eval (e := -3) (m := 5146971002709138) (by norm_num) (by norm_num) (by norm_num)
        (by norm_num [pyRound])]
      norm_num
    rw [h1]
    have hc : max (0 : Rat) (min 1 (2573485501354569 / 18014398509481984)) =
        2573485501354569 / 18014398509481984 := by
      rw [min_eq_right (by norm_num), max_eq_right (by norm_num)]
    simp only [hc]
    have h2 : fl64 (1 - 2573485501354569 / 18014398509481984 : Rat) =
        1930114126015927 / 2251799813685248 := by
      rw [fl64_eval (e := -1) (m := 7720456504063708) (by norm_num) (by norm_num) (by norm_num)
        (by norm_num [pyRound])]
      norm_num
    rw [h2]
    have h3 : fl64 (1930114126015927 / 2251799813685248 * 30 : Rat) =
        3618963986279863 / 140737488355328 := by
      rw [fl64_eval (e := 4) (m := 7237927972559726) (by norm_num) (by norm_num) (by norm_num)
        (by norm_num [pyRound])]
      norm_num
    rw [h3]
    norm_num [pyTrunc]
  · have hp : pct_done 1 7 = 1 / 7 := by norm_num [pct_done]
    rw [hp]
    norm_num [pyRound]

/-- C2 (amended): the progress-anchoring penalty is Python's `int()`
truncation of the IEEE-double evaluation of `(1 − clamp(pct_done)) × 30`, not
its rounding.  Certified through the correctly-rounded binary64 model at
representative points: at `pct_done = 1/7` the program subtracts 25 where
`round` gives 26; double rounding can even fall below the exact floor — at
`pct_done = 5/6` the program subtracts 4 where `⌊(1 − 5/6) × 30⌋ = 5` — and
the range endpoints `pct_done = 0` and `pct_done = 1` give 30 and 0. -/
theorem c2_progress_penalty_trunc :
    progress_penalty_fp 1 7 = 25 ∧
    pyRound ((1 - pct_done 1 7) * 30) = 26 ∧
    progress_penalty_fp 5 6 = 4 ∧
    Int.floor ((1 - pct_done 5 6) * 30) = 5 ∧
    progress_penalty_fp 0 7 = 30 ∧
    progress_penalty_fp 7 7 = 0 := by
  refine ⟨?_, ?_, ?_, ?_, ?_, ?_⟩
  · unfold progress_penalty_fp
    rw [if_pos (by norm_num : (0 : Int) < 7)]
    have hcast : ((1 : Int) : Rat) / ((7 : Int) : Rat) = 1 / 7 := by norm_num
    rw [hcast]
    have h1 : fl64 (1 / 7 : Rat) = 2573485501354569 / 18014398509481984 := by
      rw [fl64_eval (e := -3) (m := 5146971002709138) (by norm_num) (by norm_num) (by norm_num)
        (by norm_num [pyRound])]
      norm_num
    rw [h1]
    have hc : max (0 : Rat) (min 1 (2573485501354569 / 18014398509481984)) =
        2573485501354569 / 18014398509481984 := by
      rw [min_eq_right (by norm_num), max_eq_right (by norm_num)]
    simp only [hc]
    have h2 : fl64 (1 - 2573485501354569 / 18014398509481984 : Rat) =
        1930114126015927 / 2251799813685248 := by
      rw [fl64_eval (e := -1) (m := 7720456504063708) (by norm_num) (by norm_num) (by norm_num)
        (by norm_num [pyRound])]
      norm_num
    rw [h2]
    have h3 : fl64 (1930114126015927 / 2251799813685248 * 30 : Rat) =
        3618963986279863 / 140737488355328 := by
      rw [fl64_eval (e := 4) (m := 7237927972559726) (by norm_num) (by norm_num) (by norm_num)
        (by norm_num [pyRound])]
      norm_num
    rw [h3]
    norm_num [pyTrunc]
  · have hp : pct_done 1 7 = 1 / 7 := by norm_num [pct_done]
    rw [hp]
    norm_num [pyRound]
  · unfold progress_penalty_fp
    rw [if_pos (by norm_num : (0 : Int) < 6)]
    have hcast : ((5 : Int) : Rat) / ((6 : Int) : Rat) = 5 / 6 := by norm_num
    rw [hcast]
    have h1 : fl64 (5 / 6 : Rat) = 7505999378950827 / 9007199254740992 := by
      rw [fl64_eval (e := -1) (m := 7505999378950827) (by norm_num) (by norm_num) (by norm_num)
        (by norm_num [pyRound])]
      norm_num
    rw [h1]
    have hc : max (0 : Rat) (min 1 (7505999378950827 / 9007199254740992)) =
        7505999378950827 / 9007199254740992 := by
      rw [min_eq_right (by norm_num), max_eq_right (by norm_num)]
    simp only [hc]
    have h2 : fl64 (1 - 7505999378950827 / 9007199254740992 : Rat) =
        1501199875790165 / 9007199254740992 := by
      rw [fl64_eval (e := -3) (m := 6004799503160660) (by norm_num) (by norm_num) (by norm_num)
        (by norm_num [pyRound])]
      norm_num
    rw [h2]
    have h3 : fl64 (1501199875790165 / 9007199254740992 * 30 : Rat) =
        5629499534213119 / 1125899906842624 := by
      rw [fl64_eval (e := 2) (m := 5629499534213119) (by norm_num) (by norm_num) (by norm_num)
        (by norm_num [pyRound])]
      norm_num
    rw [h3]
    norm_num [pyTrunc]
  · have hp : pct_done 5 6 = 5 / 6 := by norm_num [pct_done]
    rw [hp]
    norm_num
  · unfold progress_penalty_fp
    rw [if_pos (by norm_num : (0 : Int) < 7)]
    have hcast : ((0 : Int) : Rat) / ((7 : Int) : Rat) = 0 := by norm_num
    rw [hcast]
    have h0 : fl64 (0 : Rat) = 0 := by
      unfold fl64
      rw [if_pos rfl]
    rw [h0]
    have hc : max (0 : Rat) (min 1 0) = 0 := by norm_num
    simp only [hc]
    have h1 : fl64 (1 - 0 : Rat) = 1 := by
      rw [show (1 - 0 : Rat) = 1 by norm_num]
      rw [fl64_eval (e := 0) (m := 4503599627370496) (by norm_num) (by norm_num) (by norm_num)
        (by norm_num [pyRound])]
      norm_num
    rw [h1]
    have h2 : fl64 (1 * 30 : Rat) = 30 := by
      rw [show (1 * 30 : Rat) = 30 by norm_num]
      rw [fl64_eval (e := 4) (m := 8444249301319680) (by norm_num) (by norm_num) (by norm_num)
        (by norm_num [pyRound])]
      norm_num
    rw [h2]
    norm_num [pyTrunc]
  · unfold progress_penalty_fp
    rw [if_pos (by norm_num : (0 : Int) < 7)]
    have hcast : ((7 : Int) : Rat) / ((7 : Int) : Rat) = 1 := by norm_num
    rw [hcast]
    have h1 : fl64 (1 : Rat) = 1 := by
      rw [fl64_eval (e := 0) (m := 4503599627370496) (by norm_num) (by norm_num) (by norm_num)
        (by norm_num [pyRound])]
      norm_num
    rw [h1]
    have hc : max (0 : Rat) (min 1 1) = 1 := by norm_num
    simp only [hc]
    have h0 : fl64 (1 - 1 : Rat) = 0 := by
      rw [show (1 - 1 : Rat) = 0 by norm_num]
      unfold fl64
      rw [if_pos rfl]
    rw [h0]
    have h2 : fl64 (0 * 30 : Rat) = 0 := by
      rw [show (0 * 30 : Rat) = 0 by norm_num]
      unfold fl64
      rw [if_pos rfl]
    rw [h2]
    norm_num [pyTrunc]

/-- C3, as stated, is false: the aggregation loop only records a status note
for a Blocked row whose summary is non-empty (`if r.status == "Blocked" and
r.summary`), and the 8-point penalty is driven by those notes.  In `c3Rows`
the story `S3` is Blocked with an empty summary and resolves to `I1`, yet the
blocked flag stays false and `I1` scores 70 (the no-penalty value), not 62
(the value with the flat 8 subtracted). -/
theorem c3_counterexample :
    (∃ r ∈ c3Rows, effResolve c3Rows r.key = some "I1" ∧ r.status = "Blocked") ∧
    alLookup (aggTable c3Rows) "I1" = some c3Agg ∧
    hasBlockedItems c3Agg = false ∧
    transform c3Rows "2026-02-06" = Except.ok c3Snap ∧
    c3Snap.initiatives.map (fun r => (r.id, r.dcs_current)) = [("I1", 70)] ∧
    dcs_from_signals (pct_done c3Agg.done_points c3Agg.total_points) c3Agg.blocked_days
      c3Agg.scope_changes_14d c3Agg.dependency_count c3Agg.critical_dependency none true = 62 ∧
    (70 : Int) ≠ 62 := by
  refine ⟨by decide, by decide, by decide, ?_, by decide, ?_, by decide⟩
  · rw [transform_eq_transformInt]
    decide
  · rw [dcs_eq_counts]
    decide

/-- C3 (amended): the confidence score is computed with the blocked flag of
the aggregate's notes, and that flag is set iff some row resolving to the
initiative has normalized status Blocked AND a non-empty summary. -/
theorem c3_blocked_penalty (rows : List Row) (k : String) (agg : InitiativeAgg) (we : Int)
    (h : alLookup (aggTable rows) k = some agg) :
    ((finalizeRecord we agg).dcs_current =
      dcs_from_signals (pct_done agg.done_points agg.total_points) agg.blocked_days
        agg.scope_changes_14d agg.dependency_count agg.critical_dependency
        (agg.due_date.map (fun d => d - we)) (hasBlockedItems agg)) ∧
    (hasBlockedItems agg = true ↔
      ∃ r ∈ resolvesTo rows k, r.status = "Blocked" ∧ r.summary ≠ "") :=
  ⟨finalizeRecord_dcs we agg, hasBlockedItems_iff rows k agg h⟩

/-- Witness: the blocked-flag characterization on a Blocked story with a real
summary. -/
theorem c3_blocked_penalty_witness :
    alLookup (aggTable c3wRows) "I1" = some c3wAgg ∧
    (((finalizeRecord 20490 c3wAgg).dcs_current =
      dcs_from_signals (pct_done c3wAgg.done_points c3wAgg.total_points) c3wAgg.blocked_days
        c3wAgg.scope_changes_14d c3wAgg.dependency_count c3wAgg.critical_dependency
        (c3wAgg.due_date.map (fun d => d - 20490)) (hasBlockedItems c3wAgg)) ∧
     (hasBlockedItems c3wAgg = true ↔
      ∃ r ∈ resolvesTo c3wRows "I1", r.status = "Blocked" ∧ r.summary ≠ "")) :=
  ⟨by decide, c3_blocked_penalty c3wRows "I1" c3wAgg 20490 (by decide)⟩

/-- C4: hierarchy resolution runs at most 20 loop iterations for any input;
when no row of the index is an Initiative (in particular on a pure cycle) it
returns `none` rather than failing or looping; and a key whose own row has
`issue_type` Initiative resolves to itself. -/
theorem c4_hierarchy_resolution (pm : List (String × String)) (idx : List (String × Row))
    (key : String) (rows : List Row) :
    (findInitiativeHops key pm idx ≤ 20) ∧
    ((∀ e ∈ idx, ¬ isInitiativeType e.2 = true) → find_initiative_key key pm idx = none) ∧
    (∀ r, alLookup (index_rows rows) key = some r → isInitiativeType r = true →
      find_initiative_key key pm (index_rows rows) = some key) ∧
    (∀ res, find_initiative_key key pm idx = some res →
      ∃ c row, alLookup idx c = some row ∧ isInitiativeType row = true ∧ res = row.key) := by
  refine ⟨?_, ?_, ?_, ?_⟩
  · suffices hgen : ∀ (n : Nat) (cur : String) (vis : List String),
        findInitGoHops pm idx n cur vis ≤ n from hgen 20 key []
    intro n
    induction n with
    | zero => intro cur vis; simp [findInitGoHops]
    | succ m ih =>
        intro cur vis
        by_cases hv : cur ∈ vis
        · simp [findInitGoHops, hv]
        · simp only [findInitGoHops, if_neg hv]
          cases hlk : alLookup idx cur with
          | some row =>
              simp only [hlk]
              by_cases hi : isInitiativeType row = true
              · simp [hi]
                try omega
              · have hi2 : isInitiativeType row = false := by simpa using hi
                simp only [hi2, Bool.false_eq_true, if_false]
                cases hp : alLookup pm cur with
                | none =>
                    simp
                    try omega
                | some p =>
                    by_cases hpe : p = ""
                    · simp [hpe]
                      try omega
                    · simp only [if_neg hpe]
                      have := ih p (cur :: vis)
                      omega
          | none =>
              simp only [hlk]
              cases hp : alLookup pm cur with
              | none =>
                  simp
                  try omega
              | some p =>
                  by_cases hpe : p = ""
                  · simp [hpe]
                    try omega
                  · simp only [if_neg hpe]
                    have := ih p (cur :: vis)
                    omega
  · intro hno
    suffices hgen : ∀ (n : Nat) (cur : String) (vis : List String),
        findInitGo pm idx n cur vis = none from hgen 20 key []
    intro n
    induction n with
    | zero => intro cur vis; rfl
    | succ m ih =>
        intro cur vis
        by_cases hv : cur ∈ vis
        · simp [findInitGo, hv]
        · simp only [findInitGo, if_neg hv]
          cases hlk : alLookup idx cur with
          | some row =>
              have hmem : (cur, row) ∈ idx := alLookup_mem hlk
              have hni : ¬ isInitiativeType row = true := hno (cur, row) hmem
              simp only [Bool.not_eq_true] at hni
              simp only [hni, if_false]
              cases hp : alLookup pm cur with
              | none => rfl
              | some p =>
                  by_cases hpe : p = ""
                  · simp [hpe]
                  · simp only [if_neg hpe]
                    exact ih p (cur :: vis)
          | none =>
              cases hp : alLookup pm cur with
              | none => rfl
              | some p =>
                  by_cases hpe : p = ""
                  · simp [hpe]
                  · simp only [if_neg hpe]
                    exact ih p (cur :: vis)
  · intro r hlk hinit
    have hkey : r.key = key := by
      unfold index_rows at hlk
      rcases alLookup_foldl_insert_origin (fun r => r.key) (fun r => r) rows [] key r hlk
        with ⟨r', _, hk, hf⟩ | h'
      · rw [hf] at hk
        exact hk
      · simp [alLookup] at h'
    show findInitGo pm (index_rows rows) 20 key [] = some key
    have h20 : (20 : Nat) = 19 + 1 := rfl
    rw [h20]
    simp only [findInitGo, List.not_mem_nil, if_neg (fun h : key ∈ ([] : List String) => by
      simp at h)]
    rw [hlk]
    simp [hinit, hkey]
  · suffices hgen : ∀ (n : Nat) (cur : String) (vis : List String) (res : String),
        findInitGo pm idx n cur vis = some res →
        ∃ c row, alLookup idx c = some row ∧ isInitiativeType row = true ∧ res = row.key from
      fun res h => hgen 20 key [] res h
    intro n
    induction n with
    | zero => intro cur vis res h; exact absurd h (by simp [findInitGo])
    | succ m ih =>
        intro cur vis res h
        by_cases hv : cur ∈ vis
        · rw [findInitGo, if_pos hv] at h
          exact absurd h (by simp)
        · rw [findInitGo, if_neg hv] at h
          cases hlk : alLookup idx cur with
          | some row =>
              simp only [hlk] at h
              by_cases hi : isInitiativeType row = true
              · simp only [hi, if_true] at h
                exact ⟨cur, row, hlk, hi, (Option.some_inj.1 h).symm⟩
              · have hi2 : isInitiativeType row = false := by simpa using hi
                simp only [hi2, Bool.false_eq_true, if_false] at h
                cases hp : alLookup pm cur with
                | none => simp [hp] at h
                | some p =>
                    simp only [hp] at h
                    by_cases hpe : p = ""
                    · simp [hpe] at h
                    · simp only [if_neg hpe] at h
                      exact ih p (cur :: vis) res h
          | none =>
              simp only [hlk] at h
              cases hp : alLookup pm cur with
              | none => simp [hp] at h
              | some p =>
                  simp only [hp] at h
                  by_cases hpe : p = ""
                  · simp [hpe] at h
                  · simp only [if_neg hpe] at h
                    exact ih p (cur :: vis) res h

/-- Witness: at most 20 hops and unresolved on a 3-node cycle; an Initiative
row resolves to itself, and any resolved key belongs to an Initiative row. -/
theorem c4_hierarchy_resolution_witness :
    (findInitiativeHops "A" cycPm cycIdx ≤ 20) ∧
    find_initiative_key "A" cycPm cycIdx = none ∧
    find_initiative_key "I1" cycPm (index_rows demoRows) = some "I1" ∧
    (∃ c row, alLookup (index_rows demoRows) c = some row ∧ isInitiativeType row = true ∧
      "I1" = row.key) :=
  ⟨(c4_hierarchy_resolution cycPm cycIdx "A" demoRows).1,
   (c4_hierarchy_resolution cycPm cycIdx "A" demoRows).2.1 (by decide),
   (c4_hierarchy_resolution cycPm cycIdx "I1" demoRows).2.2.1 rowI1 (by decide) (by decide),
   (c4_hierarchy_resolution cycPm (index_rows demoRows) "I1" demoRows).2.2.2 "I1" (by decide)⟩

/-- C5, as stated, is false for `blocked_days`: the fold starts the running
maximum at 0, so when every resolving row has a negative `Blocked Days` cell
(allowed by `parse_int`), the stored value 0 differs from the true maximum
(−2 in `c5Rows`). -/
theorem c5_counterexample :
    parse_int "-2" = -2 ∧
    alLookup (aggTable c5Rows) "I1" = some c5Agg ∧
    ((resolvesTo c5Rows "I1").map Row.blocked_days).max? = some (-2) ∧
    c5Agg.blocked_days = 0 ∧ c5Agg.blocked_days ≠ -2 := by
  refine ⟨by decide, by decide, by decide, by decide, by decide⟩

/-- C5 (amended): `dependency_count` equals the sum of `Blocks` over the rows
resolving to the initiative; and provided every row's `blocked_days` is
non-negative, `blocked_days` equals the maximum (not the sum) over those
rows. -/
theorem c5_rollups (rows : List Row) (hbd : ∀ r ∈ rows, 0 ≤ r.blocked_days)
    (k : String) (agg : InitiativeAgg) (h : alLookup (aggTable rows) k = some agg) :
    agg.dependency_count = ((resolvesTo rows k).map Row.blocks).sum ∧
    (∀ m, ((resolvesTo rows k).map Row.blocked_days).max? = some m →
      agg.blocked_days = m) := by
  rcases aggTable_entry_shape rows k agg h with ⟨a0, _, _, hbd0, _, hdep0, _, hshape⟩
  constructor
  · rw [hshape, foldl_foldRow_dep, hdep0]
    omega
  · intro m hm
    rw [hshape, foldl_foldRow_blocked, hbd0]
    apply foldl_max_zero_of_max? _ m hm
    intro x hx
    rcases List.mem_map.1 hx with ⟨r, hr, hrx⟩
    rw [← hrx]
    exact hbd r ((List.mem_filter.1 hr).1)

/-- Witness: the rollup characterization on `demoRows`. -/
theorem c5_rollups_witness :
    (∀ r ∈ demoRows, 0 ≤ r.blocked_days) ∧
    alLookup (aggTable demoRows) "I1" = some demoAgg ∧
    demoAgg.dependency_count = ((resolvesTo demoRows "I1").map Row.blocks).sum ∧
    (((resolvesTo demoRows "I1").map Row.blocked_days).max? = some 0 ∧
      demoAgg.blocked_days = 0) :=
  ⟨by decide, by decide,
   (c5_rollups demoRows (by decide) "I1" demoAgg (by decide)).1,
   by decide,
   (c5_rollups demoRows (by decide) "I1" demoAgg (by decide)).2 0 (by decide)⟩

/-- C6: every snapshot record has `dcs_current ∈ [0, 100]`, and its stored
band is Green iff the score is ≥ 80, Yellow iff it is in 60–79, Red iff it is
below 60. -/
theorem c6_dcs_band (rows : List Row) (we : String) (snap : Snapshot)
    (h : transform rows we = Except.ok snap) :
    ∀ rec ∈ snap.initiatives,
      (0 ≤ rec.dcs_current ∧ rec.dcs_current ≤ 100) ∧
      (rec.band = "Green" ↔ 80 ≤ rec.dcs_current) ∧
      (rec.band = "Yellow" ↔ 60 ≤ rec.dcs_current ∧ rec.dcs_current ≤ 79) ∧
      (rec.band = "Red" ↔ rec.dcs_current < 60) := by
  rcases transform_ok_shape rows we snap h with ⟨wd, _, hinit⟩
  intro rec hrec
  rw [hinit, mem_stableSort] at hrec
  rcases List.mem_map.1 hrec with ⟨agg, _, hfin⟩
  subst hfin
  refine ⟨⟨?_, ?_⟩, ?_, ?_, ?_⟩
  · rw [finalizeRecord_dcs]
    exact dcs_nonneg _ _ _ _ _ _ _
  · rw [finalizeRecord_dcs]
    exact dcs_le_100 _ _ _ _ _ _ _
  · rw [finalizeRecord_band]
    exact band_green_iff _
  · rw [finalizeRecord_band]
    exact band_yellow_iff _
  · rw [finalizeRecord_band]
    exact band_red_iff _

/-- Witness: the band/bound facts for the record `transform` produces from
`demoRows`. -/
theorem c6_dcs_band_witness :
    transform demoRows "2026-02-06" = Except.ok demoSnap ∧
    demoRec ∈ demoSnap.initiatives ∧
    ((0 ≤ demoRec.dcs_current ∧ demoRec.dcs_current ≤ 100) ∧
     (demoRec.band = "Green" ↔ 80 ≤ demoRec.dcs_current) ∧
     (demoRec.band = "Yellow" ↔ 60 ≤ demoRec.dcs_current ∧ demoRec.dcs_current ≤ 79) ∧
     (demoRec.band = "Red" ↔ demoRec.dcs_current < 60)) := by
  have htr : transform demoRows "2026-02-06" = Except.ok demoSnap := by
    rw [transform_eq_transformInt]
    decide
  exact ⟨htr, by decide, c6_dcs_band demoRows "2026-02-06" demoSnap htr demoRec (by decide)⟩

/-- C7: the initiatives of every snapshot are sorted ascending by
`(band, dcs_current)` with the band compared lexically as a string, and that
lexical order puts "Green" before "Red" before "Yellow". -/
theorem c7_snapshot_order (rows : List Row) (we : String) (snap : Snapshot)
    (h : transform rows we = Except.ok snap) :
    snap.initiatives.Pairwise (fun a b => keyLE a b = true) ∧
    strLt "Green" "Red" = true ∧ strLt "Red" "Yellow" = true := by
  rcases transform_ok_shape rows we snap h with ⟨wd, _, hinit⟩
  refine ⟨?_, by decide, by decide⟩
  rw [hinit]
  exact pairwise_stableSort keyLE keyLE_trans keyLE_total _

/-- Witness: the ordering facts for the snapshot built from `demoRows`. -/
theorem c7_snapshot_order_witness :
    transform demoRows "2026-02-06" = Except.ok demoSnap ∧
    (demoSnap.initiatives.Pairwise (fun a b => keyLE a b = true) ∧
     strLt "Green" "Red" = true ∧ strLt "Red" "Yellow" = true) := by
  have htr : transform demoRows "2026-02-06" = Except.ok demoSnap := by
    rw [transform_eq_transformInt]
    decide
  exact ⟨htr, c7_snapshot_order demoRows "2026-02-06" demoSnap htr⟩

/-- A required CSV header is absent (or there is no header row at all). -/
def headersMissing (d : CsvData) : Prop :=
  match d.fieldnames with
  | none => True
  | some fns => ∃ h, h ∈ REQUIRED_HEADERS ∧ ¬ h ∈ fns

/-- C8: the transform stage fails exactly when a required CSV header is
missing or `week_ending` is unparsable; the model returns a snapshot only in
the `Except.ok` case, so in either failure case no output exists. -/
theorem c8_failure_iff (d : CsvData) (we : String) :
    (∃ e, runTransform d we = Except.error e) ↔
      headersMissing d ∨ parse_date we = none := by
  unfold runTransform
  cases hf : d.fieldnames with
  | none =>
      constructor
      · intro _
        exact Or.inl (by unfold headersMissing; rw [hf]; trivial)
      · intro _
        refine ⟨"CSV has no headers.", ?_⟩
        unfold load_csv
        rw [hf]
        rfl
  | some fns =>
      by_cases hm : REQUIRED_HEADERS.filter (fun h => !(fns.contains h)) = []
      · have hload : load_csv d =
            Except.ok ((d.records.filter
              (fun rec => stripStr (getField rec "Issue key" "") ≠ "")).map rowOfRecord) := by
          unfold load_csv
          rw [hf]
          simp only [hm]
          simp
        have hnomiss : ¬ headersMissing d := by
          unfold headersMissing
          rw [hf]
          rintro ⟨hh, hmem, hnot⟩
          have : hh ∈ REQUIRED_HEADERS.filter (fun h => !(fns.contains h)) :=
            List.mem_filter.2 ⟨hmem, by simpa using hnot⟩
          rw [hm] at this
          simp at this
        rw [hload]
        unfold transform transformWith
        cases hpd : parse_date we with
        | none =>
            simp only [Except.bind]
            constructor
            · intro _
              exact Or.inr trivial
            · intro _
              exact ⟨"week_ending must be a date like YYYY-MM-DD", rfl⟩
        | some wd =>
            simp only [Except.bind]
            constructor
            · rintro ⟨e, he⟩
              exact Except.noConfusion he
            · rintro (hmiss | hpd')
              · exact absurd hmiss hnomiss
              · simp at hpd'
      · have hload : load_csv d = Except.error (strCat "Missing required headers: "
            (pyListRepr (REQUIRED_HEADERS.filter (fun h => !(fns.contains h))))) := by
          unfold load_csv
          rw [hf]
          simp [hm]
          rcases List.exists_mem_of_ne_nil _ hm with ⟨hh, hhm⟩
          rcases List.mem_filter.1 hhm with ⟨hmem, hpred⟩
          exact ⟨hh, hmem, by simpa using hpred⟩
        rw [hload]
        constructor
        · intro _
          refine Or.inl ?_
          unfold headersMissing
          rw [hf]
          rcases List.exists_mem_of_ne_nil _ hm with ⟨hh, hhm⟩
          rcases List.mem_filter.1 hhm with ⟨hmem, hpred⟩
          exact ⟨hh, hmem, by simpa using hpred⟩
        · intro _
          exact ⟨_, rfl⟩

/-- C9: for any integer snapshot fields, each of the six heatmap driver
scores is an integer in [0, 10], including Dependencies after its +2
critical bump. -/
theorem c9_driver_bounds (item : HeatItem) :
    (0 ≤ (compute_driver_scores item).confidence_risk ∧
      (compute_driver_scores item).confidence_risk ≤ 10) ∧
    (0 ≤ (compute_driver_scores item).blocked ∧ (compute_driver_scores item).blocked ≤ 10) ∧
    (0 ≤ (compute_driver_scores item).scope_volatility ∧
      (compute_driver_scores item).scope_volatility ≤ 10) ∧
    (0 ≤ (compute_driver_scores item).dependencies ∧
      (compute_driver_scores item).dependencies ≤ 10) ∧
    (0 ≤ (compute_driver_scores item).due_proximity ∧
      (compute_driver_scores item).due_proximity ≤ 10) ∧
    (0 ≤ (compute_driver_scores item).stagnation ∧
      (compute_driver_scores item).stagnation ≤ 10) := by
  unfold compute_driver_scores
  dsimp only
  refine ⟨?_, ?_, ?_, ?_, ?_, ?_⟩
  · exact score_0_10_bounds _ _
  · exact score_0_10_bounds _ _
  · exact score_0_10_bounds _ _
  · have hdep := score_0_10_bounds ((item.dependency_count : Rat)) 6
    by_cases hc : item.critical_dependency = true
    · simp only [hc, if_true]
      omega
    · have hc2 : item.critical_dependency = false := by simpa using hc
      simp only [hc2, Bool.false_eq_true, if_false]
      exact hdep
  · by_cases h7 : item.days_to_target ≤ 7
    · simp [h7]
    · by_cases h14 : item.days_to_target ≤ 14
      · simp [h7, h14]
      · by_cases h21 : item.days_to_target ≤ 21
        · simp [h7, h14, h21]
        · simp [h7, h14, h21]
  · exact score_0_10_bounds _ _

/-- C10 (implicit): from non-negative `scope_changes_14d` inputs, every
snapshot record's synthetic prior is at least its current score, so the
brief's `delta = dcs_current − dcs_prior` is never positive and its
positive-momentum filter can only fire through the Green-and-≥85 branch. -/
theorem c10_delta_nonpositive (rows : List Row) (we : String) (snap : Snapshot)
    (h : transform rows we = Except.ok snap)
    (hsc : ∀ r ∈ rows, 0 ≤ r.scope_changes_14d) :
    ∀ rec ∈ snap.initiatives,
      rec.dcs_current ≤ rec.dcs_prior ∧ initiativeDelta rec ≤ 0 ∧
      ¬ (0 < initiativeDelta rec) ∧
      (positiveMomentum rec = true → rec.band = "Green" ∧ 85 ≤ rec.dcs_current) := by
  rcases transform_ok_shape rows we snap h with ⟨wd, _, hinit⟩
  intro rec hrec
  rw [hinit, mem_stableSort] at hrec
  rcases List.mem_map.1 hrec with ⟨agg, hagg, hfin⟩
  rcases mem_values_aggTable rows agg hagg with ⟨k, hk⟩
  have hscagg : 0 ≤ agg.scope_changes_14d := aggTable_scope_nonneg rows k agg hk hsc
  have hprior : rec.dcs_current ≤ rec.dcs_prior := by
    rw [← hfin]
    exact finalizeRecord_prior_ge wd agg hscagg
  have hdelta : initiativeDelta rec ≤ 0 := by
    unfold initiativeDelta
    omega
  refine ⟨hprior, hdelta, by omega, ?_⟩
  intro hpm
  unfold positiveMomentum at hpm
  simp only [Bool.or_eq_true, Bool.and_eq_true, decide_eq_true_eq] at hpm
  rcases hpm with hpm | hpm
  · omega
  · exact hpm

/-- Witness: the delta facts for the record `transform` builds from
`demoRows`. -/
theorem c10_delta_nonpositive_witness :
    transform demoRows "2026-02-06" = Except.ok demoSnap ∧
    (∀ r ∈ demoRows, 0 ≤ r.scope_changes_14d) ∧
    demoRec ∈ demoSnap.initiatives ∧
    (demoRec.dcs_current ≤ demoRec.dcs_prior ∧ initiativeDelta demoRec ≤ 0 ∧
     ¬ (0 < initiativeDelta demoRec) ∧
     (positiveMomentum demoRec = true → demoRec.band = "Green" ∧ 85 ≤ demoRec.dcs_current)) := by
  have htr : transform demoRows "2026-02-06" = Except.ok demoSnap := by
    rw [transform_eq_transformInt]
    decide
  exact ⟨htr, by decide, by decide,
    c10_delta_nonpositive demoRows "2026-02-06" demoSnap htr (by decide) demoRec (by decide)⟩

/-- A CSV whose header row lacks four of the five required columns. -/
def badCsv : CsvData := { fieldnames := some ["Issue key"], records := [] }

/-- Witness: the failure characterization applied to a concrete header-poor
CSV. -/
theorem c8_failure_iff_witness :
    (∃ e, runTransform badCsv "2026-02-06" = Except.error e) ↔
      headersMissing badCsv ∨ parse_date "2026-02-06" = none :=
  c8_failure_iff badCsv "2026-02-06"

/-- A concrete snapshot record with a critical dependency. -/
def heatDemo : HeatItem :=
  { dcs_current := 75, blocked_days := 3, scope_changes_14d := 2,
    dependency_count := 7, critical_dependency := true, days_to_target := 5,
    days_stagnant := 4 }

/-- Witness: the driver-score bounds at one concrete snapshot record. -/
theorem c9_driver_bounds_witness :
    0 ≤ (compute_driver_scores heatDemo).dependencies ∧
      (compute_driver_scores heatDemo).dependencies ≤ 10 :=
  (c9_driver_bounds heatDemo).2.2.2.1
